import Mathlib

/-!
# rotatelogs: a shallow embedding of the rotating log sink

The Go package `rotatelogs` (files `rotatelogs.go`, `interface.go`, `writer.go`)
is embedded as pure functions over an explicit machine state.

Modelling conventions.

* A `time.Time` is an instant counted in integer nanoseconds and a `time.Duration`
  is an `int64` count of nanoseconds; both are values of `Int`, with `wrap64`
  applied where Go arithmetic on durations may wrap.
* Every call of `time.Now()` consumes one reading of `Env.clock`; the number of
  readings taken so far is the field `Sys.tick`.
* Calls into the operating system (`os.Stat`, `os.MkdirAll`, `os.OpenFile`,
  `File.Stat`, `File.Write`) are answered by the oracles of `Env`; their visible
  effects are appended to `Sys.trace`.
* Go strings are lists of characters; the standard library functions
  `strings.IndexAny`, `strings.TrimRight`, `filepath.Ext` and `filepath.Base`
  (Unix separator) are transcribed from their Go definitions.
-/

namespace rotatelogs

set_option maxRecDepth 8000

/-! ## Basic types -/

/-- Go `[]byte`. -/
abbrev Bytes := List (Fin 256)

/-- Go `*os.File`, identified by the descriptor the operating system returned. -/
structure File where
  fd : Nat
deriving DecidableEq

/-- Go `logFile`. -/
structure logFile where
  filePath : String
  dateTime : Int
deriving DecidableEq

/-- Go `rotateConfig`. -/
structure rotateConfig where
  fileBasePath : String := ""
  fileBaseName : String := ""
  subDateDir : String := ""
  suffixFileDateTimeLayout : String := ""
  maxAge : Int := 0
  maxNum : Int := 0
  logChannelLen : Int := 0
  rotationTime : Int := 0
  rotateLogFileMaxSize : Int := 0
  fileExt : String := ""
deriving DecidableEq

/-- Go `hisLogFile`. -/
structure hisLogFile where
  files : List logFile := []
deriving DecidableEq

/-- The two implementations of the Go interface `IWriter`. -/
inductive IWriter where
  | channelWriter
  | fileWriter
deriving DecidableEq

/-- Go `RotateLogs` (the mutex and the unused `eventChannel` carry no data). -/
structure RotateLogs extends rotateConfig, hisLogFile where
  currFileName : String := ""
  currFileDate : Int := 0
  currFileSize : Int := 0
  writer : Option IWriter := none
  outFh : Option File := none
  nextRotateTime : Int := 0
deriving DecidableEq

/-- Go `syncDone`, identified by its channel `doneChan`. -/
structure syncDone where
  doneChan : Nat
deriving DecidableEq

/-- Go `channelWriter`: the contents of its two channels, oldest element first.
The raw write function `wf` is an argument of the worker step. -/
structure channelWriter where
  /-- Payloads pending in `logChannel`. -/
  logChannel : List Bytes := []
  /-- Capacity of `logChannel`. -/
  logChannelLen : Nat := 0
  /-- Flush requests pending in `syncChannel` (capacity 1). -/
  syncChannel : List syncDone := []
  /-- Whether `close(cw.syncChannel)` has run. -/
  syncClosed : Bool := false
deriving DecidableEq

/-- Effects on the outside world, in the order they happen. -/
inductive Event where
  /-- The call `fh.Write` stored the bytes `p` in the file behind `fh`. -/
  | write (fh : File) (p : Bytes)
  /-- The call `fh.Close()`. -/
  | close (fh : File)
  /-- The call `rl.removeFile(files)`: a detached task that deletes the paths in order. -/
  | removeFile (files : List String)
  /-- The call `fmt.Println(line)`. -/
  | println (line : String)
deriving DecidableEq

/-- The environment of the program: the clock and the operating system. -/
structure Env where
  /-- The successive readings of `time.Now()`. -/
  clock : Nat → Int
  /-- Local midnight `time.Date(y, m, d, 0, 0, 0, 0, time.Local)` of the instant's calendar day. -/
  localMidnight : Int → Int
  /-- Go `Time.Format`. -/
  format : Int → String → String
  /-- Go `filepath.Join` of three elements. -/
  join : String → String → String → String
  /-- Go `filepath.Dir`. -/
  dir : String → String
  /-- Whether `os.Stat(path)` succeeded and reported a directory. -/
  isDir : String → Bool
  /-- Whether `os.MkdirAll` succeeds in the k-th call of `openNewFile`. -/
  mkdirAll : Nat → String → Bool
  /-- Result of `os.OpenFile` in the k-th call of `openNewFile` (`none`: error). -/
  openFile : Nat → String → Option File
  /-- Result of `fh.Stat()` and `Size()` in the k-th call of `openNewFile` (`none`: error). -/
  statSize : Nat → File → Option Int
  /-- Result of `fh.Write(p)` for the k-th raw write: `none` when all of `p` was written,
  `some n` when only `n` bytes were written and an error is returned. -/
  fileWrite : Nat → File → Bytes → Option Nat
  /-- The entries `filepath.Walk` visits: path, `IsDir()`, `ModTime()`. -/
  walk : String → List (String × Bool × Int)

/-- The machine state: the sink, the counters of the oracles, the effects so far. -/
structure Sys where
  rl : RotateLogs := {}
  tick : Nat := 0
  opens : Nat := 0
  writes : Nat := 0
  trace : List Event := []
  /-- The channels of the buffered writer, when `rl.writer` is the `channelWriter`. -/
  cw : channelWriter := {}
deriving DecidableEq

/-- Go `time.Now()`. -/
def timeNow (env : Env) (s : Sys) : Int × Sys :=
  (env.clock s.tick, { s with tick := s.tick + 1 })

/-! ## Retention: `appendNewFile` -/

/-- The loop `for i := 0; i < removeNum; i++ { removeFile = append(removeFile, rl.files[i].filePath) }`. -/
def countLoop (files : List logFile) (removeNum : Nat) (removeFile : List String) : List String :=
  (List.range removeNum).foldl
    (fun acc i => match files.get? i with
      | some f => acc ++ [f.filePath]
      | none => acc)
    removeFile

/-- The loop `for i := range rl.files` of the age policy; `tick` counts the readings of
`time.Now()`, one per iteration (the breaking one included). Returns `removeFile`,
`removeIdx` and the clock counter. -/
def ageLoop (env : Env) (maxAge : Int) :
    List logFile → Nat → Nat → List String → Int → List String × Int × Nat
  | [], _, tick, removeFile, removeIdx => (removeFile, removeIdx, tick)
  | f :: rest, i, tick, removeFile, removeIdx =>
    if f.dateTime + maxAge < env.clock tick then
      ageLoop env maxAge rest (i + 1) (tick + 1) (removeFile ++ [f.filePath]) i
    else
      (removeFile, removeIdx, tick + 1)

/-- Go `(*RotateLogs).removeFile`: the deletion runs detached. -/
def removeFile (s : Sys) (files : List String) : Sys :=
  { s with trace := s.trace ++ [Event.removeFile files] }

/-- Go `(*RotateLogs).appendNewFile`. -/
def appendNewFile (env : Env) (s : Sys) (fileName : String) : Sys :=
  if s.rl.maxNum = 0 ∧ s.rl.maxAge = 0 then s
  else
    let removeFile0 : List String := []
    let (now, s1) := timeNow env s
    let files1 := s1.rl.files ++ [{ filePath := fileName, dateTime := now }]
    let (files2, removeFile1) :=
      if s1.rl.maxNum > 0 ∧ (files1.length : Int) > s1.rl.maxNum then
        let removeNum := ((files1.length : Int) - s1.rl.maxNum).toNat
        (files1.drop removeNum, countLoop files1 removeNum removeFile0)
      else (files1, removeFile0)
    let (files3, removeFile2, tick) :=
      if s1.rl.maxAge > 0 then
        let (rf, removeIdx, tick) := ageLoop env s1.rl.maxAge files2 0 s1.tick removeFile1 (-1)
        (files2.drop (removeIdx + 1).toNat, rf, tick)
      else (files2, removeFile1, s1.tick)
    removeFile { s1 with rl := { s1.rl with files := files3 }, tick := tick } removeFile2

/-! ## File lifecycle -/

/-- Go `(*RotateLogs).getFileName`; `time.Now()` is read twice. -/
def getFileName (env : Env) (s : Sys) : String × Sys :=
  let (now1, s1) := timeNow env s
  let (now2, s2) := timeNow env s1
  (env.join s.rl.fileBasePath (env.format now1 s.rl.subDateDir)
      (s.rl.fileBaseName ++ env.format now2 s.rl.suffixFileDateTimeLayout ++ s.rl.fileExt), s2)

/-- Go `(*RotateLogs).openNewFile`: the handle, the path and the existing size, or an error. -/
def openNewFile (env : Env) (s : Sys) : Except String (File × String × Int) × Sys :=
  let (filePathName, s1) := getFileName env s
  let k := s1.opens
  let s2 := { s1 with opens := k + 1 }
  let dirName := env.dir filePathName
  if env.mkdirAll k dirName = false then
    (Except.error ("failed to create directory " ++ dirName), s2)
  else
    match env.openFile k filePathName with
    | none => (Except.error ("failed to open file " ++ filePathName ++ "s"), s2)
    | some fh =>
      match env.statSize k fh with
      | none => (Except.error ("failed to stat file " ++ filePathName ++ "s"), s2)
      | some size => (Except.ok (fh, filePathName, size), s2)

/-- Go `(*RotateLogs).setNewFD`. -/
def setNewFD (env : Env) (s : Sys) (fd : File) (fileName : String) (fileSize : Int) : Sys :=
  let s1 :=
    match s.rl.outFh with
    | some old => appendNewFile env { s with trace := s.trace ++ [Event.close old] } s.rl.currFileName
    | none => s
  { s1 with rl := { s1.rl with outFh := some fd, currFileName := fileName, currFileSize := fileSize } }

/-- Go `(*RotateLogs).rotateFile`; the result is the error (`none` for `nil`). -/
def rotateFile (env : Env) (s : Sys) : Option String × Sys :=
  match openNewFile env s with
  | (Except.error err, s1) => (some err, s1)
  | (Except.ok (fh, fileName, fileSize), s1) => (none, setNewFD env s1 fh fileName fileSize)

/-- Go `(*RotateLogs).writeToFile`, that is `rl.outFh.Write(p)`: the count and the error.
A nil `*os.File` answers `0, ErrInvalid`. -/
def writeToFile (env : Env) (s : Sys) (p : Bytes) : (Int × Option String) × Sys :=
  match s.rl.outFh with
  | none => ((0, some "invalid argument"), s)
  | some fh =>
    let k := s.writes
    match env.fileWrite k fh p with
    | none =>
      ((p.length, none), { s with writes := k + 1, trace := s.trace ++ [Event.write fh p] })
    | some n =>
      (((p.take n).length, some "write error"),
        { s with writes := k + 1, trace := s.trace ++ [Event.write fh (p.take n)] })

/-! ## Rotation engine -/

/-- Two's complement wrap-around of `int64` arithmetic. -/
def wrap64 (x : Int) : Int := (x + 2 ^ 63) % 2 ^ 64 - 2 ^ 63

/-- Go `Time.Sub`: the difference as a `Duration`, saturated at the `int64` limits. -/
def timeSub (t u : Int) : Int :=
  if t - u > 2 ^ 63 - 1 then 2 ^ 63 - 1
  else if t - u < -(2 ^ 63) then -(2 ^ 63)
  else t - u

/-- The arithmetic of Go `getNextRotationTime` on the instant `nowTime` and its local
midnight `zeroDate`: `/` on `Duration` truncates toward zero, `+` and `*` wrap. -/
def nextRotationTime (rotationTime : Int) (zeroDate nowTime : Int) : Int :=
  let passTime := timeSub nowTime zeroDate
  let passCnt := wrap64 (wrap64 (Int.tdiv passTime rotationTime) + 1)
  zeroDate + wrap64 (passCnt * rotationTime)

/-- Go `(*RotateLogs).getNextRotationTime` (called only with `rotationTime != 0`). -/
def getNextRotationTime (env : Env) (s : Sys) : Int × Sys :=
  let (nowTime, s1) := timeNow env s
  let zeroDate := env.localMidnight nowTime
  (nextRotationTime s.rl.rotationTime zeroDate nowTime, s1)

/-- Go `(*RotateLogs).rotateFileTime`. -/
def rotateFileTime (env : Env) (s : Sys) : Bool × Sys :=
  if s.rl.rotationTime = 0 then (false, s)
  else
    let (now, s1) := timeNow env s
    if now < s1.rl.nextRotateTime then (false, s1)
    else
      let (next, s2) := getNextRotationTime env s1
      let s3 := { s2 with rl := { s2.rl with nextRotateTime := next } }
      let (err, s4) := rotateFile env s3
      (err.isNone, s4)

/-- Go `(*RotateLogs).rotateFileSize`; the addition to the `int64` counter wraps. -/
def rotateFileSize (env : Env) (s : Sys) (size : Int) : Option String × Sys :=
  if s.rl.rotateLogFileMaxSize ≤ 0 then (none, s)
  else
    let s1 := { s with rl := { s.rl with currFileSize := wrap64 (s.rl.currFileSize + size) } }
    if s1.rl.currFileSize < s1.rl.rotateLogFileMaxSize then (none, s1)
    else rotateFile env s1

/-- Go `(*fileWriter).Write`: the raw write function `wf`, here `rl.writeToFile`. -/
def fileWriter.Write (env : Env) (s : Sys) (p : Bytes) : (Int × Option String) × Sys :=
  writeToFile env s p

/-- Go `(*channelWriter).Write`: the send `cw.logChannel <- p` completes when the channel has
room; `none` when the channel is full and the caller stays blocked. -/
def channelWriter.Write (cw : channelWriter) (p : Bytes) : Option ((Int × Option String) × channelWriter) :=
  if cw.logChannel.length < cw.logChannelLen then
    some ((p.length, none), { cw with logChannel := cw.logChannel ++ [p] })
  else none

/-- The call `rl.writer.Write(p)` through the interface `IWriter`; `none` when the call does
not return (a full channel, or no writer installed). -/
def writerWrite (env : Env) (s : Sys) (p : Bytes) : Option ((Int × Option String) × Sys) :=
  match s.rl.writer with
  | some IWriter.fileWriter => some (fileWriter.Write env s p)
  | some IWriter.channelWriter =>
    match channelWriter.Write s.cw p with
    | some (r, cw1) => some (r, { s with cw := cw1 })
    | none => none
  | none => none

/-- Go `(*RotateLogs).Write`: the count, the error, and the state after the call;
`none` when the call does not return. -/
def Write (env : Env) (s : Sys) (p : Bytes) : Option ((Int × Option String) × Sys) :=
  let (ok, s1) := rotateFileTime env s
  match writerWrite env s1 p with
  | none => none
  | some ((n, err), s2) =>
    if err.isSome then some ((0, err), s2)
    else
      if !ok then
        let (err1, s3) := rotateFileSize env s2 p.length
        some ((n, err1), s3)
      else some ((n, err), s2)

/-! ## Buffered writer: the worker step -/

/-- Go `(*channelWriter).Sync`, up to the send `cw.syncChannel <- &sDone`; `none` when the
channel (capacity 1) is full and the caller stays blocked. -/
def channelWriter.Sync (cw : channelWriter) (sDone : syncDone) : Option channelWriter :=
  if cw.syncChannel.length < 1 then some { cw with syncChannel := cw.syncChannel ++ [sDone] }
  else none

/-- Go `(*channelWriter).Close`, up to `close(cw.syncChannel)`. -/
def channelWriter.Close (cw : channelWriter) : channelWriter :=
  { cw with syncClosed := true }

/-- The loop `for i := 0; i < len(cw.logChannel); i++ { byteLog = <-cw.logChannel; cw.wf(byteLog) }`
with no concurrent producer: the condition reads the current length of the channel at every
iteration. Returns what is left in the channel and the state of the sink. -/
def drainLoop {σ : Type} (wf : σ → Bytes → σ) : List Bytes → Nat → σ → List Bytes × σ
  | [], _, st => ([], st)
  | byteLog :: rest, i, st =>
    if i < (byteLog :: rest).length then drainLoop wf rest (i + 1) (wf st byteLog)
    else (byteLog :: rest, st)

/-- The case of the `select` in `(*channelWriter).write` that the worker takes. -/
inductive Case where
  | syncChannel
  | logChannel
deriving DecidableEq

/-- The result of one worker step: the returned boolean, the flush request acknowledged by
`sDone.done()` (if any), the channels and the sink afterwards. -/
structure StepResult (σ : Type) where
  result : Bool
  done : Option syncDone
  cw : channelWriter
  sink : σ

/-- Go `(*channelWriter).write` with no concurrent producer, for the case `c` of the `select`;
`none` when that case is not ready. A receive from the closed, empty `syncChannel` yields nil. -/
def channelWriter.write {σ : Type} (wf : σ → Bytes → σ) (c : Case) (cw : channelWriter) (st : σ) :
    Option (StepResult σ) :=
  match c with
  | Case.syncChannel =>
    let barrier (sDone : Option syncDone) (rest : List syncDone) : StepResult σ :=
      let (left, st1) := drainLoop wf cw.logChannel 0 st
      let cw1 := { cw with logChannel := left, syncChannel := rest }
      match sDone with
      | none => { result := false, done := none, cw := cw1, sink := st1 }
      | some d => { result := true, done := some d, cw := cw1, sink := st1 }
    match cw.syncChannel with
    | d :: rest => some (barrier (some d) rest)
    | [] => if cw.syncClosed then some (barrier none []) else none
  | Case.logChannel =>
    match cw.logChannel with
    | byteLog :: rest =>
      some { result := true, done := none, cw := { cw with logChannel := rest }, sink := wf st byteLog }
    | [] => none

/-! ## Standard library string functions used by the constructor -/

/-- Scan of Go `strings.IndexAny`: the position, counted from `i`, of the first character of
the string that occurs in `chars`, or `-1`. -/
def indexAnyFrom (chars : List Char) : List Char → Nat → Int
  | [], _ => -1
  | c :: cs, i => if c ∈ chars then (i : Int) else indexAnyFrom chars cs (i + 1)

/-- Go `strings.IndexAny(s, chars)`: the index of the first character of `s` that is one of the
characters of `chars`, or `-1` when there is none. -/
def IndexAny (s chars : String) : Int :=
  indexAnyFrom chars.toList s.toList 0

/-- Go `strings.TrimRight(s, cutset)`: `s` without all its trailing characters that are
contained in `cutset`. -/
def TrimRight (s cutset : String) : String :=
  String.mk (s.toList.reverse.dropWhile (fun c => decide (c ∈ cutset.toList))).reverse

/-- The loop of Go `filepath.Ext`, over the characters from the last one backwards;
`acc` is the text to the right of the position. -/
def extLoop : List Char → List Char → List Char
  | [], _ => []
  | c :: before, acc =>
    if c = '/' then []
    else if c = '.' then c :: acc
    else extLoop before (c :: acc)

/-- Go `filepath.Ext` (separator `/`): the suffix beginning at the final dot in the final
element of `path`; empty if there is no dot. -/
def Ext (path : String) : String :=
  String.mk (extLoop path.toList.reverse [])

/-- Go `filepath.Base` (separator `/`, no volume name). -/
def Base (path : String) : String :=
  if path = "" then "."
  else
    let stripped := (path.toList.reverse.dropWhile (fun c => c = '/')).reverse
    let last := (stripped.reverse.takeWhile (fun c => c ≠ '/')).reverse
    if last = [] then "/" else String.mk last

/-! ## Options (`interface.go`) -/

/-- Go `MinRotationTime = 5 * time.Minute`. -/
def MinRotationTime : Int := 5 * 60 * 1000000000

/-- Go `MinAge = 1 * time.Hour`. -/
def MinAge : Int := 3600 * 1000000000

/-- Go `DefaultFileExt`. -/
def DefaultFileExt : String := ".log"

/-- Go `OptionFn`, the only implementation of `Option`: `Configure` updates the sink and
returns an error (`none` for `nil`). -/
abbrev OptionFn := RotateLogs → Option String × RotateLogs

/-- Go `WithChannelLen`. -/
def WithChannelLen (channelLen : Int) : OptionFn := fun rl =>
  if channelLen ≤ 0 then (some "channel length must be greater than zero", rl)
  else (none, { rl with logChannelLen := channelLen })

/-- Go `WithFileExt`. -/
def WithFileExt (fileExt : String) : OptionFn := fun rl =>
  (none, { rl with fileExt := fileExt })

/-- Go `WithRotationTime`. -/
def WithRotationTime (t : Int) : OptionFn := fun rl =>
  if t < MinRotationTime then (some "rotationTime is too small", rl)
  else (none, { rl with rotationTime := t })

/-- Go `WithRotateMaxSize`. -/
def WithRotateMaxSize (maxSize : Int) : OptionFn := fun rl =>
  (none, { rl with rotateLogFileMaxSize := maxSize })

/-- Go `WithMaxAge`. -/
def WithMaxAge (maxAge : Int) : OptionFn := fun rl =>
  if maxAge < MinAge then (some "maxAge is too small", rl)
  else (none, { rl with maxAge := maxAge })

/-- Go `WithMaxFileNum`. -/
def WithMaxFileNum (maxNum : Int) : OptionFn := fun rl =>
  (none, { rl with maxNum := maxNum })

/-! ## Construction -/

/-- Go `checkFileNameDateTimeLayout`: the error, `none` for `nil`. -/
def checkFileNameDateTimeLayout (fileNameDateTimeLayout : String) : Option String :=
  if IndexAny fileNameDateTimeLayout "2006" = -1 then some "invalid date time layout"
  else if IndexAny fileNameDateTimeLayout "01" = -1 then some "invalid date time layout"
  else if IndexAny fileNameDateTimeLayout "02" = -1 then some "invalid date time layout"
  else if IndexAny fileNameDateTimeLayout "15" = -1 then some "invalid date time layout"
  else if IndexAny fileNameDateTimeLayout "04" = -1 then some "invalid date time layout"
  else if IndexAny fileNameDateTimeLayout "05" = -1 then some "invalid date time layout"
  else none

/-- Go `(*RotateLogs).setDefaultConfig`. -/
def setDefaultConfig (rl : RotateLogs) : RotateLogs :=
  if rl.fileExt = "" then { rl with fileExt := DefaultFileExt } else rl

/-- Go `(*RotateLogs).walkLogs`. `sort.Slice` leaves the order of entries with equal times
unspecified; the model keeps the sort stable. -/
def walkLogs (env : Env) (s : Sys) : Sys :=
  if s.rl.maxNum = 0 ∧ s.rl.maxAge = 0 then s
  else
    let files := (env.walk s.rl.fileBasePath).foldl
      (fun (files : List logFile) (entry : String × Bool × Int) =>
        if entry.2.1 then files
        else if Ext entry.1 ≠ s.rl.fileExt then files
        else files ++ [{ filePath := entry.1, dateTime := entry.2.2 }])
      s.rl.files
    { s with rl := { s.rl with
        files := files.insertionSort (fun a b => a.dateTime ≤ b.dateTime) } }

/-- Go `(*RotateLogs).prepare`; the result is the error (`none` for `nil`). -/
def prepare (env : Env) (s : Sys) : Option String × Sys :=
  let s1 := walkLogs env s
  match openNewFile env s1 with
  | (Except.error err, s2) => (some err, s2)
  | (Except.ok (fh, fileName, size), s2) =>
    let s3 := setNewFD env s2 fh fileName size
    let (now, s4) := timeNow env s3
    let s5 := { s4 with rl := { s4.rl with currFileDate := now } }
    if s5.rl.rotationTime ≠ 0 then
      let (next, s6) := getNextRotationTime env s5
      let a := env.format next "2006-01-02 15:04:05"
      (none, { s6 with rl := { s6.rl with nextRotateTime := next },
                       trace := s6.trace ++ [Event.println a] })
    else (none, s5)

/-- Go `newChannelWriter`: two empty channels (the worker is started detached). -/
def newChannelWriter (logChannelLen : Int) : channelWriter :=
  { logChannel := [], logChannelLen := logChannelLen.toNat, syncChannel := [], syncClosed := false }

/-- Go `NewRotateLogs`: the sink, or the error and no sink. The error that
`option.Configure(rl)` returns is not looked at. -/
def NewRotateLogs (env : Env) (basePath baseFileName subDateDir suffixFileDateTimeLayout : String)
    (options : List OptionFn) : Except String Sys :=
  if env.isDir basePath = false then Except.error ("Not found dir " ++ basePath)
  else
    let rl0 : RotateLogs :=
      { fileBasePath := basePath, fileBaseName := baseFileName, subDateDir := subDateDir,
        suffixFileDateTimeLayout := suffixFileDateTimeLayout }
    match checkFileNameDateTimeLayout (Base suffixFileDateTimeLayout) with
    | some err => Except.error err
    | none =>
      let rl1 := { rl0 with fileExt := Ext suffixFileDateTimeLayout }
      let rl2 := { rl1 with
        suffixFileDateTimeLayout := TrimRight suffixFileDateTimeLayout rl1.fileExt }
      let rl3 := options.foldl (fun rl option => (option rl).2) rl2
      let rl4 := setDefaultConfig rl3
      match prepare env { rl := rl4 } with
      | (some err, _) => Except.error err
      | (none, s) =>
        if s.rl.logChannelLen > 0 then
          Except.ok { s with rl := { s.rl with writer := some IWriter.channelWriter },
                             cw := newChannelWriter s.rl.logChannelLen }
        else
          Except.ok { s with rl := { s.rl with writer := some IWriter.fileWriter } }

/-! ## Specification-side definitions and concrete inputs -/

/-- Number of entries the age loop evicts: the leading entries that are expired at the
reading of the clock taken in their iteration. -/
def ageRun (env : Env) (maxAge : Int) : List logFile → Nat → Nat
  | [], _ => 0
  | f :: rest, tick =>
    if f.dateTime + maxAge < env.clock tick then ageRun env maxAge rest (tick + 1) + 1 else 0

/-- Number of entries the count policy of `appendNewFile` evicts from a sequence. -/
def countEvicted (maxNum : Int) (all : List logFile) : Nat :=
  if maxNum > 0 ∧ (all.length : Int) > maxNum then ((all.length : Int) - maxNum).toNat else 0

/-- Number of entries the age policy of `appendNewFile` evicts from a sequence. -/
def ageEvicted (env : Env) (maxAge : Int) (files : List logFile) (tick : Nat) : Nat :=
  if maxAge > 0 then ageRun env maxAge files tick else 0

/-- Whether an entry is older than the age window at the instant `now`:
`dateTime.Add(maxAge).Before(now)`. -/
def expired (maxAge : Int) (now : Int) (f : logFile) : Bool :=
  decide (f.dateTime + maxAge < now)

/-- One day, in nanoseconds. -/
def day : Int := 86400000000000

/-- An environment in the time zone UTC in which every operating system call succeeds: the
k-th open returns descriptor `k` of an empty file, layouts are formatted as themselves. Its
clock reads 22:00 of day 0 four times (the readings of the constructor) and 05:00 of day 1
afterwards. -/
def envUTC : Env :=
  { clock := fun k => if k < 4 then 79200000000000 else 104400000000000,
    localMidnight := fun t => t - t % day,
    format := fun _ layout => layout, join := fun a b c => a ++ "/" ++ b ++ "/" ++ c,
    dir := fun p => p, isDir := fun _ => true, mkdirAll := fun _ _ => true,
    openFile := fun k _ => some ⟨k⟩, statSize := fun _ _ => some 0,
    fileWrite := fun _ _ _ => none, walk := fun _ => [] }

/-- The environment `envUTC` with a clock that always reads 100 ns after midnight of day 0. -/
def envQuiet : Env := { envUTC with clock := fun _ => 100 }

/-- A sink that keeps at most 2 files and holds the retired files `a` and `b`. -/
def sysCount : Sys :=
  { rl := { maxNum := 2, files := [⟨"a", 0⟩, ⟨"b", 50⟩] } }

/-- A sink that keeps files for 60 ns and holds the retired files `a` and `b`. -/
def sysAge : Sys :=
  { rl := { maxAge := 60, files := [⟨"a", 0⟩, ⟨"b", 50⟩] } }

/-- An environment in the time zone UTC whose clock reads midnight of day 0. -/
def envMidnight : Env := { envUTC with clock := fun _ => 0 }

/-- A sink with a rotation interval of 5 minutes. -/
def sysFiveMin : Sys := { rl := { rotationTime := 300000000000 } }

/-- A sink with a rotation interval of 7 hours, before its first deadline is computed. -/
def sysSevenHours : Sys := { rl := { rotationTime := 25200000000000 } }

/-- The sink that `NewRotateLogs` returns in `envUTC` for the interval of 7 hours: the
deadline 04:00 of day 1 was computed at 22:00 of day 0. -/
def sysSevenHoursDue : Sys :=
  { rl := { fileBasePath := "d", fileBaseName := "b", subDateDir := "",
            suffixFileDateTimeLayout := "_20060102_150405", fileExt := ".log",
            rotationTime := 25200000000000, nextRotateTime := 100800000000000,
            currFileName := "d//b_20060102_150405.log", currFileDate := 79200000000000,
            outFh := some ⟨0⟩, writer := some IWriter.fileWriter },
    tick := 4, opens := 1, trace := [Event.println "2006-01-02 15:04:05"] }

/-- A sink with a rotation interval of 6 hours, before its first deadline is computed. -/
def sysSixHours : Sys := { rl := { rotationTime := 21600000000000 } }

/-- The sink that `NewRotateLogs` returns in `envUTC` for the interval of 6 hours: the
deadline 00:00 of day 1 was computed at 22:00 of day 0. -/
def sysSixHoursDue : Sys :=
  { rl := { fileBasePath := "d", fileBaseName := "b", subDateDir := "",
            suffixFileDateTimeLayout := "_20060102_150405", fileExt := ".log",
            rotationTime := 21600000000000, nextRotateTime := 86400000000000,
            currFileName := "d//b_20060102_150405.log", currFileDate := 79200000000000,
            outFh := some ⟨0⟩, writer := some IWriter.fileWriter },
    tick := 4, opens := 1, trace := [Event.println "2006-01-02 15:04:05"] }

/-- No time rotation fires from the state `s` on: time rotation is disabled, or the clock
stays before the deadline. -/
def NoTimeRotation (env : Env) (s : Sys) : Prop :=
  s.rl.rotationTime = 0 ∨ ∀ k, s.tick ≤ k → env.clock k < s.rl.nextRotateTime

/-- Every raw write stores the whole payload. -/
def WritesSucceed (env : Env) : Prop :=
  ∀ k fh p, env.fileWrite k fh p = none

/-- Every file open succeeds: the directory is made, the file is opened and stat'ed. -/
def OpensSucceed (env : Env) : Prop :=
  ∀ k path, env.mkdirAll k (env.dir path) = true ∧
    ∃ fh size, env.openFile k path = some fh ∧ env.statSize k fh = some size

/-- A sink in synchronous mode with an open file, max size `M`, and no time rotation due. -/
def SyncReady (env : Env) (M : Int) (s : Sys) : Prop :=
  s.rl.writer = some IWriter.fileWriter ∧ s.rl.outFh.isSome = true ∧
  s.rl.rotateLogFileMaxSize = M ∧ NoTimeRotation env s

/-- Every size that stat reports is a file size: non-negative and below `2^62`. -/
def SizesInRange (env : Env) : Prop :=
  ∀ k fh size, env.statSize k fh = some size → 0 ≤ size ∧ size < 2 ^ 62

/-- The Writes of the payloads `ps`, one after the other; `none` when one does not return. -/
def writeAll (env : Env) : Sys → List Bytes → Option Sys
  | s, [] => some s
  | s, p :: ps =>
    match Write env s p with
    | some (_, s1) => writeAll env s1 ps
    | none => none

/-- Total number of bytes stored by the raw writes of a trace, over all files. -/
def bytesWritten : List Event → Nat
  | [] => 0
  | Event.write _ p :: rest => p.length + bytesWritten rest
  | _ :: rest => bytesWritten rest

/-- The environment `envUTC` with a clock that advances by one second at every reading and
a formatter that appends one `+` to the layout for every second of the instant, so that
files opened at different seconds have different names. -/
def envTicking : Env :=
  { envUTC with
    clock := fun k => k * 1000000000,
    format := fun t layout =>
      if layout = "" then ""
      else layout ++ String.mk (List.replicate (t / 1000000000).toNat '+') }

/-- The sink that `NewRotateLogs` returns in `envTicking` for max size 10: synchronous mode,
the empty file with descriptor 0 open, no time rotation and no retention configured. -/
def sysSync : Sys :=
  { rl := { fileBasePath := "d", fileBaseName := "b", subDateDir := "",
            suffixFileDateTimeLayout := "_20060102_150405", fileExt := ".log",
            rotateLogFileMaxSize := 10,
            currFileName := "d//b_20060102_150405+.log", currFileDate := 2000000000,
            outFh := some ⟨0⟩, writer := some IWriter.fileWriter },
    tick := 3, opens := 1 }

/-- The environment `envQuiet`, whose formatter gives every file the same name, with a stat
that reports 0 bytes at the first open and 10 bytes from the second open on. -/
def envSameSecond : Env :=
  { envQuiet with statSize := fun k _ => if k = 0 then some 0 else some 10 }

/-- The sink that `NewRotateLogs` returns in `envSameSecond` for max size 10. -/
def sysSameSecond : Sys :=
  { rl := { fileBasePath := "d", fileBaseName := "b", subDateDir := "",
            suffixFileDateTimeLayout := "_20060102_150405", fileExt := ".log",
            rotateLogFileMaxSize := 10,
            currFileName := "d//b_20060102_150405.log", currFileDate := 100,
            outFh := some ⟨0⟩, writer := some IWriter.fileWriter },
    tick := 3, opens := 1 }

/-- A payload of 10 bytes. -/
def payload10 : Bytes := List.replicate 10 0

/-- A payload of 4 bytes. -/
def payload4 : Bytes := List.replicate 4 1

/-- A raw write function that records the payloads it is given, in order. -/
def recordWf (applied : List Bytes) (p : Bytes) : List Bytes := applied ++ [p]

/-- A buffered writer with two payloads pending and one flush request issued by `Sync`. -/
def cwTwoPending : channelWriter :=
  { logChannel := [payload4, payload10], logChannelLen := 10,
    syncChannel := [⟨1⟩], syncClosed := false }

/-- A buffered writer with three payloads pending and the close signal issued by `Close`. -/
def cwThreeClosing : channelWriter :=
  { logChannel := [payload4, payload10, payload4], logChannelLen := 10,
    syncChannel := [], syncClosed := true }

/-! # Theorems -/

/-! ## Retention by count and by age (C1, C2) -/

/-- The count loop appends the paths of the first `n` entries. -/
theorem countLoop_eq (files : List logFile) (n : Nat) (acc : List String) (h : n ≤ files.length) :
    countLoop files n acc = acc ++ (files.take n).map logFile.filePath := by
  induction n with
  | zero => simp [countLoop]
  | succ n ih =>
    have hn : n < files.length := h
    have ih1 := ih (Nat.le_of_lt hn)
    unfold countLoop at ih1 ⊢
    rw [List.range_succ, List.foldl_append, ih1]
    simp only [List.foldl_cons, List.foldl_nil]
    rw [List.get?_eq_get hn]
    simp only [List.append_assoc]
    congr 1
    rw [← List.map_singleton (f := logFile.filePath), ← List.map_append]
    congr 1
    rw [List.take_succ]
    simp [List.getElem?_eq_getElem hn]

/-- The age loop evicts no more entries than there are. -/
theorem ageRun_le (env : Env) (maxAge : Int) (files : List logFile) (tick : Nat) :
    ageRun env maxAge files tick ≤ files.length := by
  induction files generalizing tick with
  | nil => simp [ageRun]
  | cons f rest ih =>
    simp only [ageRun]
    split
    · simpa using ih (tick + 1)
    · simp

/-- The age loop appends the paths of the entries it evicts and leaves `removeIdx` at the
index of the last of them. -/
theorem ageLoop_eq (env : Env) (maxAge : Int) (files : List logFile) (i tick : Nat)
    (rf : List String) (ri : Int) :
    (ageLoop env maxAge files i tick rf ri).1
        = rf ++ (files.take (ageRun env maxAge files tick)).map logFile.filePath ∧
    (ageLoop env maxAge files i tick rf ri).2.1
        = (if ageRun env maxAge files tick = 0 then ri
           else (i : Int) + (ageRun env maxAge files tick : Int) - 1) := by
  induction files generalizing i tick rf ri with
  | nil => simp [ageLoop, ageRun]
  | cons f rest ih =>
    simp only [ageLoop, ageRun]
    split
    · obtain ⟨h1, h2⟩ := ih (i + 1) (tick + 1) (rf ++ [f.filePath]) (i : Int)
      rw [h1, h2]
      constructor
      · simp
      · split <;> simp <;> omega
    · simp

/-- The count policy evicts no more entries than there are. -/
theorem countEvicted_le (maxNum : Int) (all : List logFile) :
    countEvicted maxNum all ≤ all.length := by
  unfold countEvicted
  split <;> omega

/-- When a retention policy is configured, `appendNewFile` keeps the recorded sequence minus
the entries evicted by count and then by age, and hands the evicted paths to `removeFile`. -/
theorem appendNewFile_spec (env : Env) (s : Sys) (fileName : String)
    (h : ¬ (s.rl.maxNum = 0 ∧ s.rl.maxAge = 0)) :
    let all := s.rl.files ++ [{ filePath := fileName, dateTime := env.clock s.tick }]
    let c := countEvicted s.rl.maxNum all
    let k := ageEvicted env s.rl.maxAge (all.drop c) (s.tick + 1)
    (appendNewFile env s fileName).rl.files = (all.drop c).drop k ∧
    (appendNewFile env s fileName).trace = s.trace ++
      [Event.removeFile ((all.take c).map logFile.filePath
        ++ ((all.drop c).take k).map logFile.filePath)] := by
  intro all c k
  have hc : c ≤ all.length := countEvicted_le _ _
  unfold appendNewFile
  rw [if_neg h]
  simp only [timeNow, removeFile]
  by_cases h1 : s.rl.maxNum > 0 ∧ ((all.length : Nat) : Int) > s.rl.maxNum
  · have hcv : c = ((all.length : Int) - s.rl.maxNum).toNat := by
      simp only [c, countEvicted, if_pos h1]
    by_cases h2 : s.rl.maxAge > 0
    · have hk : k = ageRun env s.rl.maxAge (all.drop c) (s.tick + 1) := by
        simp only [k, ageEvicted, if_pos h2]
      obtain ⟨e1, e2⟩ := ageLoop_eq env s.rl.maxAge (all.drop c) 0 (s.tick + 1)
        (countLoop all c []) (-1)
      simp only [all] at h1
      simp only [if_pos h1, if_pos h2]
      simp only [all] at hcv e1 e2 hc hk ⊢
      rw [← hcv, e1, e2, ← hk, countLoop_eq _ _ _ hc]
      constructor
      · congr 1
        split <;> omega
      · simp
    · have hk : k = 0 := by simp only [k, ageEvicted, if_neg h2]
      simp only [all] at h1
      simp only [if_pos h1, if_neg h2]
      simp only [all] at hcv hc hk ⊢
      rw [← hcv, hk, countLoop_eq _ _ _ hc]
      simp
  · have hcv : c = 0 := by simp only [c, countEvicted, if_neg h1]
    by_cases h2 : s.rl.maxAge > 0
    · have hk : k = ageRun env s.rl.maxAge (all.drop c) (s.tick + 1) := by
        simp only [k, ageEvicted, if_pos h2]
      obtain ⟨e1, e2⟩ := ageLoop_eq env s.rl.maxAge (all.drop c) 0 (s.tick + 1) [] (-1)
      simp only [all] at h1
      simp only [if_neg h1, if_pos h2]
      simp only [all] at hcv e1 e2 hc hk ⊢
      rw [hcv] at e1 e2 hk ⊢
      simp only [List.drop_zero] at e1 e2 hk ⊢
      rw [e1, e2, ← hk]
      constructor
      · congr 1
        split <;> omega
      · simp
    · have hk : k = 0 := by simp only [k, ageEvicted, if_neg h2]
      simp only [all] at h1
      simp only [if_neg h1, if_neg h2]
      simp only [all] at hcv hc hk ⊢
      rw [hcv, hk]
      simp

/-- With a clock that reads `now` throughout, the age loop evicts the leading expired run. -/
theorem ageRun_const (env : Env) (maxAge : Int) (now : Int) (hclock : ∀ k, env.clock k = now)
    (files : List logFile) (tick : Nat) :
    ageRun env maxAge files tick = (files.takeWhile (expired maxAge now)).length := by
  induction files generalizing tick with
  | nil => simp [ageRun]
  | cons f rest ih =>
    simp only [ageRun, hclock, List.takeWhile_cons, expired]
    by_cases h : f.dateTime + maxAge < now
    · simp [h, ih (tick + 1), expired]
    · simp [h]

/-- Taking as many elements as `takeWhile` keeps is `takeWhile`. -/
theorem take_length_takeWhile {α : Type} (p : α → Bool) (l : List α) :
    l.take (l.takeWhile p).length = l.takeWhile p := by
  induction l with
  | nil => simp
  | cons a l ih =>
    simp only [List.takeWhile_cons]
    split
    · simp [ih]
    · simp

/-- Dropping as many elements as `takeWhile` keeps is `dropWhile`. -/
theorem drop_length_takeWhile {α : Type} (p : α → Bool) (l : List α) :
    l.drop (l.takeWhile p).length = l.dropWhile p := by
  induction l with
  | nil => simp
  | cons a l ih =>
    simp only [List.takeWhile_cons, List.dropWhile_cons]
    split
    · simp [ih]
    · simp

/-- In a sequence with non-decreasing creation times nothing expired is left after the
leading expired run. -/
theorem dropWhile_expired_fresh (maxAge : Int) (now : Int) (l : List logFile)
    (hsorted : l.Pairwise (fun a b => a.dateTime ≤ b.dateTime)) :
    ∀ f ∈ l.dropWhile (expired maxAge now), ¬ (f.dateTime + maxAge < now) := by
  induction l with
  | nil => simp
  | cons a l ih =>
    rw [List.pairwise_cons] at hsorted
    simp only [List.dropWhile_cons]
    by_cases h : a.dateTime + maxAge < now
    · simp only [expired, h, decide_True, if_true]
      exact ih hsorted.2
    · simp only [expired, h, decide_False]
      intro f hf
      rcases List.mem_cons.mp hf with rfl | hf
      · exact h
      · have hle : a.dateTime ≤ f.dateTime := hsorted.1 f hf
        omega

/-- Claim C1. Retention by count in `appendNewFile`: with a max count `N > 0`, after a retired
file is recorded at most `N` entries remain; with max age disabled and `L` the length of the
old sequence plus one, if `L > N` exactly `N` entries remain, they are the `N` newest in their
original order, and the paths handed to deletion are the `L - N` oldest in order; if `L ≤ N`
nothing is deleted and the sequence is the old one with the new entry appended. -/
theorem appendNewFile_retention_by_count (env : Env) (s : Sys) (fileName : String) (N : Int)
    (hN : 0 < N) (hmax : s.rl.maxNum = N) :
    let all := s.rl.files ++ [{ filePath := fileName, dateTime := env.clock s.tick }]
    let L := s.rl.files.length + 1
    ((appendNewFile env s fileName).rl.files.length : Int) ≤ N ∧
    (s.rl.maxAge ≤ 0 →
      ((L : Int) > N →
        ((appendNewFile env s fileName).rl.files.length : Int) = N ∧
        (appendNewFile env s fileName).rl.files = all.drop (L - N.toNat) ∧
        (appendNewFile env s fileName).trace
          = s.trace ++ [Event.removeFile ((all.take (L - N.toNat)).map logFile.filePath)]) ∧
      ((L : Int) ≤ N →
        (appendNewFile env s fileName).rl.files = all ∧
        (appendNewFile env s fileName).trace = s.trace ++ [Event.removeFile []])) := by
  intro all L
  have h0 : ¬ (s.rl.maxNum = 0 ∧ s.rl.maxAge = 0) := by
    rintro ⟨h, _⟩
    omega
  obtain ⟨hf, ht⟩ := appendNewFile_spec env s fileName h0
  have hlen : all.length = L := by simp [all, L]
  rw [hmax] at hf ht
  refine ⟨?_, ?_⟩
  · rw [hf]
    simp only [List.length_drop]
    show ((all.length - countEvicted N all - _ : Nat) : Int) ≤ N
    unfold countEvicted
    split <;> omega
  · intro hage
    have hk : ∀ l t, ageEvicted env s.rl.maxAge l t = 0 := by
      intro l t
      unfold ageEvicted
      rw [if_neg (by omega)]
    rw [hk] at hf ht
    simp only [List.drop_zero, List.take_zero, List.map_nil, List.append_nil] at hf ht
    refine ⟨?_, ?_⟩
    · intro hL
      have hc : countEvicted N all = L - N.toNat := by
        unfold countEvicted
        rw [if_pos ⟨hN, by omega⟩]
        omega
      rw [hf, ht]
      show ((List.drop (countEvicted N all) all).length : Int) = N ∧
        List.drop (countEvicted N all) all = _ ∧ _
      rw [hc]
      refine ⟨?_, rfl, rfl⟩
      simp only [List.length_drop]
      omega
    · intro hL
      have hc : countEvicted N all = 0 := by
        unfold countEvicted
        rw [if_neg (by omega)]
      rw [hf, ht]
      show List.drop (countEvicted N all) all = _ ∧ _
      rw [hc]
      exact ⟨rfl, rfl⟩

/-- Claim C1, an instance of `appendNewFile_retention_by_count`: with max count 2 and the
files `a`, `b` retained, recording `c` deletes `a` and keeps `b`, `c`. -/
theorem appendNewFile_retention_by_count_witness :
    (0 : Int) < 2 ∧ sysCount.rl.maxNum = 2 ∧
    (appendNewFile envQuiet sysCount "c").rl.files = [⟨"b", 50⟩, ⟨"c", 100⟩] ∧
    (appendNewFile envQuiet sysCount "c").trace = [Event.removeFile ["a"]] :=
  ⟨by decide, rfl,
    ((appendNewFile_retention_by_count envQuiet sysCount "c" 2 (by decide) rfl).2
      (by decide)).1 (by decide) |>.2⟩

/-- Claim C2. Retention by age in `appendNewFile`: with a max age `A > 0` and the clock reading
`now` throughout the call, the entries the age policy evicts are exactly the longest leading
run of entries (of the sequence left by the count policy) whose creation time plus `A` is
before `now`; the deleted paths followed by the retained entries are the prior sequence with
the new entry appended; and when creation times are non-decreasing along the sequence, no
retained entry has creation time plus `A` before `now`. -/
theorem appendNewFile_retention_by_age (env : Env) (s : Sys) (fileName : String) (A now : Int)
    (hA : 0 < A) (hage : s.rl.maxAge = A) (hclock : ∀ k, env.clock k = now) :
    let all := s.rl.files ++ [{ filePath := fileName, dateTime := now }]
    let c := countEvicted s.rl.maxNum all
    let evicted := (all.drop c).takeWhile (fun f => decide (f.dateTime + A < now))
    let retained := (all.drop c).dropWhile (fun f => decide (f.dateTime + A < now))
    (appendNewFile env s fileName).rl.files = retained ∧
    (appendNewFile env s fileName).trace = s.trace ++
      [Event.removeFile ((all.take c).map logFile.filePath ++ evicted.map logFile.filePath)] ∧
    ((all.take c).map logFile.filePath ++ evicted.map logFile.filePath)
        ++ (appendNewFile env s fileName).rl.files.map logFile.filePath
      = all.map logFile.filePath ∧
    (all.Pairwise (fun a b => a.dateTime ≤ b.dateTime) →
      ∀ f ∈ (appendNewFile env s fileName).rl.files, ¬ (f.dateTime + A < now)) := by
  intro all c evicted retained
  have h0 : ¬ (s.rl.maxNum = 0 ∧ s.rl.maxAge = 0) := by
    rintro ⟨_, h⟩
    omega
  obtain ⟨hf, ht⟩ := appendNewFile_spec env s fileName h0
  rw [hclock] at hf ht
  have hk : ageEvicted env s.rl.maxAge (all.drop c) (s.tick + 1) = evicted.length := by
    unfold ageEvicted
    rw [if_pos (by omega), ageRun_const env _ now hclock, hage]
    rfl
  have hf1 : (appendNewFile env s fileName).rl.files = retained := by
    rw [hf]
    show List.drop (ageEvicted env s.rl.maxAge (all.drop c) (s.tick + 1)) (all.drop c) = _
    rw [hk]
    exact drop_length_takeWhile _ _
  have ht1 : (appendNewFile env s fileName).trace = s.trace ++
      [Event.removeFile ((all.take c).map logFile.filePath ++ evicted.map logFile.filePath)] := by
    rw [ht]
    show s.trace ++ [Event.removeFile ((all.take c).map logFile.filePath ++
      (List.take (ageEvicted env s.rl.maxAge (all.drop c) (s.tick + 1))
        (all.drop c)).map logFile.filePath)] = _
    rw [hk]
    show _ = s.trace ++ [Event.removeFile ((all.take c).map logFile.filePath ++
      (List.takeWhile _ (all.drop c)).map logFile.filePath)]
    rw [← take_length_takeWhile]
  refine ⟨hf1, ht1, ?_, ?_⟩
  · rw [hf1]
    show _ ++ (List.dropWhile _ (all.drop c)).map logFile.filePath = _
    rw [List.append_assoc, ← List.map_append, List.takeWhile_append_dropWhile,
      ← List.map_append, List.take_append_drop]
  · intro hsorted
    rw [hf1]
    have hs : (all.drop c).Pairwise (fun a b => a.dateTime ≤ b.dateTime) :=
      hsorted.sublist (List.drop_sublist _ _)
    exact dropWhile_expired_fresh A now _ hs

/-- Claim C2, an instance of `appendNewFile_retention_by_age`: with max age 60 at the instant
100, the file `a` created at 0 is evicted and `b` created at 50 is kept. -/
theorem appendNewFile_retention_by_age_witness :
    (0 : Int) < 60 ∧ sysAge.rl.maxAge = 60 ∧ (∀ k, envQuiet.clock k = 100) ∧
    (appendNewFile envQuiet sysAge "c").rl.files = [⟨"b", 50⟩, ⟨"c", 100⟩] :=
  ⟨by decide, rfl, fun _ => rfl,
    (appendNewFile_retention_by_age envQuiet sysAge "c" 60 100 (by decide) rfl (fun _ => rfl)).1.trans
      (by decide)⟩

/-! ## The rotation deadline (C4, C5) -/

/-- Values in the `int64` range are not changed by the wrap-around. -/
theorem wrap64_eq (x : Int) (h1 : -(2 ^ 63) ≤ x) (h2 : x < 2 ^ 63) : wrap64 x = x := by
  unfold wrap64
  rw [Int.emod_eq_of_lt (by omega) (by omega)]
  omega

/-- Within the `int64` range nothing wraps in `nextRotationTime`. -/
theorem nextRotationTime_eq (I z now : Int) (hI : 0 < I) (hI64 : I < 2 ^ 63)
    (hz : z ≤ now) (hday : now - z < 2 ^ 62) :
    nextRotationTime I z now = z + ((now - z) / I + 1) * I := by
  have hx0 : 0 ≤ now - z := by omega
  have hsub : timeSub now z = now - z := by
    unfold timeSub
    rw [if_neg (by omega), if_neg (by omega)]
  have hq0 : 0 ≤ (now - z) / I := Int.ediv_nonneg hx0 (le_of_lt hI)
  have hqle : (now - z) / I ≤ now - z := Int.ediv_le_self _ hx0
  have hmul : (now - z) / I * I ≤ now - z := Int.ediv_mul_le _ (ne_of_gt hI)
  have hprod : ((now - z) / I + 1) * I < 2 ^ 63 := by
    by_cases hlt : now - z < I
    · rw [Int.ediv_eq_zero_of_lt hx0 hlt]
      omega
    · have : ((now - z) / I + 1) * I = (now - z) / I * I + I := by ring
      omega
  have hprod0 : 0 ≤ ((now - z) / I + 1) * I :=
    Int.mul_nonneg (by omega) (le_of_lt hI)
  unfold nextRotationTime
  simp only [hsub]
  rw [Int.tdiv_eq_ediv hx0 (le_of_lt hI)]
  rw [wrap64_eq ((now - z) / I) (by omega) (by omega)]
  rw [wrap64_eq ((now - z) / I + 1) (by omega) (by omega)]
  rw [wrap64_eq _ (by omega) hprod]

/-- The deadline is after `now`, by at most one interval. -/
theorem nextRotationTime_gt (I z now : Int) (hI : 0 < I) (hI64 : I < 2 ^ 63)
    (hz : z ≤ now) (hday : now - z < 2 ^ 62) :
    now < nextRotationTime I z now ∧ nextRotationTime I z now - I ≤ now := by
  rw [nextRotationTime_eq I z now hI hI64 hz hday]
  have h1 := Int.emod_add_ediv (now - z) I
  have h2 := Int.emod_nonneg (now - z) (ne_of_gt hI)
  have h3 := Int.emod_lt_of_pos (now - z) hI
  have h4 : ((now - z) / I + 1) * I = I * ((now - z) / I) + I := by ring
  constructor <;> omega

/-- The ceiling of a quotient that is not an integer is the floor plus one. -/
theorem ceil_div_of_not_dvd (x I : Int) (hI : 0 < I) (hnd : ¬ I ∣ x) :
    ⌈(x : ℚ) / (I : ℚ)⌉ = x / I + 1 := by
  have hIq : (0 : ℚ) < (I : ℚ) := by exact_mod_cast hI
  have h1 := Int.emod_add_ediv x I
  have h2 := Int.emod_nonneg x (ne_of_gt hI)
  have h3 := Int.emod_lt_of_pos x hI
  have h5 : x % I ≠ 0 := fun h => hnd (Int.dvd_of_emod_eq_zero h)
  rw [Int.ceil_eq_iff]
  constructor
  · rw [lt_div_iff₀ hIq]
    have : (x / I : Int) * I < x := by
      have : x / I * I = I * (x / I) := by ring
      omega
    have hq : ((x / I * I : Int) : ℚ) < (x : ℚ) := by exact_mod_cast this
    push_cast at hq ⊢
    linarith
  · rw [div_le_iff₀ hIq]
    have : x ≤ (x / I + 1) * I := by
      have : (x / I + 1) * I = I * (x / I) + I := by ring
      omega
    have hq : (x : ℚ) ≤ (((x / I + 1) * I : Int) : ℚ) := by exact_mod_cast this
    push_cast at hq ⊢
    linarith

/-- The ceiling of a quotient that is an integer is the quotient. -/
theorem ceil_div_of_dvd (x I : Int) (hI : 0 < I) (hd : I ∣ x) :
    ⌈(x : ℚ) / (I : ℚ)⌉ = x / I := by
  obtain ⟨k, rfl⟩ := hd
  have hIq : (I : ℚ) ≠ 0 := by exact_mod_cast (ne_of_gt hI)
  rw [Int.mul_ediv_cancel_left _ (ne_of_gt hI)]
  push_cast
  rw [mul_div_cancel_left₀ _ hIq]
  exact Int.ceil_intCast k

/-- The deadline `getNextRotationTime` returns, in terms of the reading of the clock. -/
theorem getNextRotationTime_fst (env : Env) (s : Sys) :
    (getNextRotationTime env s).1
      = nextRotationTime s.rl.rotationTime (env.localMidnight (env.clock s.tick)) (env.clock s.tick) :=
  rfl

/-- Claim C4, as the code has it. For a rotation interval `0 < I` (an `int64`) and a reading
`now` of the clock at most `2^62` ns after its local midnight, `getNextRotationTime` returns
`midnight + (floor((now - midnight)/I) + 1) * I` in exact integer nanoseconds: the first
interval boundary strictly after `now`. That is the formula with `ceil` whenever `now - midnight`
is not a multiple of `I`, and one interval more than it when it is. -/
theorem getNextRotationTime_formula (env : Env) (s : Sys) (I : Int)
    (hI : 0 < I) (hI64 : I < 2 ^ 63) (hrot : s.rl.rotationTime = I)
    (hmid : env.localMidnight (env.clock s.tick) ≤ env.clock s.tick)
    (hday : env.clock s.tick - env.localMidnight (env.clock s.tick) < 2 ^ 62) :
    let now := env.clock s.tick
    let midnight := env.localMidnight now
    let next := (getNextRotationTime env s).1
    next = midnight + ((now - midnight) / I + 1) * I ∧
    now < next ∧ next - I ≤ now ∧
    (¬ I ∣ (now - midnight) →
      next = midnight + ⌈((now - midnight : Int) : ℚ) / (I : ℚ)⌉ * I) ∧
    (I ∣ (now - midnight) →
      next = midnight + ⌈((now - midnight : Int) : ℚ) / (I : ℚ)⌉ * I + I) := by
  intro now midnight next
  have hnext : next = nextRotationTime I midnight now := by
    show (getNextRotationTime env s).1 = _
    rw [getNextRotationTime_fst, hrot]
  have heq := nextRotationTime_eq I midnight now hI hI64 hmid hday
  have hgt := nextRotationTime_gt I midnight now hI hI64 hmid hday
  rw [hnext]
  refine ⟨heq, hgt.1, hgt.2, ?_, ?_⟩
  · intro hnd
    rw [ceil_div_of_not_dvd _ _ hI hnd, heq]
  · intro hd
    rw [ceil_div_of_dvd _ _ hI hd, heq]
    ring

/-- Claim C4, an instance of `getNextRotationTime_formula`: at 22:00 with an interval of 7
hours the deadline is 28:00 after midnight, that is 04:00 of the next day. -/
theorem getNextRotationTime_formula_witness :
    (0 : Int) < 25200000000000 ∧
    (getNextRotationTime envUTC sysSevenHours).1 = 100800000000000 :=
  ⟨by decide,
    (getNextRotationTime_formula envUTC sysSevenHours 25200000000000 (by decide) (by decide) rfl
      (by decide) (by decide)).1.trans (by decide)⟩

/-- Claim C4 fails as stated: at local midnight exactly, with an interval of 5 minutes,
`getNextRotationTime` returns midnight plus 5 minutes, while
`midnight + ceil((now - midnight)/I) * I` is midnight itself. -/
theorem getNextRotationTime_not_ceil :
    (getNextRotationTime envMidnight sysFiveMin).1 = 300000000000 ∧
    envMidnight.localMidnight (envMidnight.clock sysFiveMin.tick)
      + ⌈((envMidnight.clock sysFiveMin.tick
            - envMidnight.localMidnight (envMidnight.clock sysFiveMin.tick) : Int) : ℚ)
          / ((sysFiveMin.rl.rotationTime : Int) : ℚ)⌉ * sysFiveMin.rl.rotationTime = 0 ∧
    (getNextRotationTime envMidnight sysFiveMin).1 ≠
      envMidnight.localMidnight (envMidnight.clock sysFiveMin.tick)
      + ⌈((envMidnight.clock sysFiveMin.tick
            - envMidnight.localMidnight (envMidnight.clock sysFiveMin.tick) : Int) : ℚ)
          / ((sysFiveMin.rl.rotationTime : Int) : ℚ)⌉ * sysFiveMin.rl.rotationTime := by
  have h1 : (getNextRotationTime envMidnight sysFiveMin).1 = 300000000000 := by decide
  have h2 : envMidnight.localMidnight (envMidnight.clock sysFiveMin.tick)
      + ⌈((envMidnight.clock sysFiveMin.tick
            - envMidnight.localMidnight (envMidnight.clock sysFiveMin.tick) : Int) : ℚ)
          / ((sysFiveMin.rl.rotationTime : Int) : ℚ)⌉ * sysFiveMin.rl.rotationTime = 0 := by
    have e1 : envMidnight.clock sysFiveMin.tick = 0 := rfl
    have e2 : envMidnight.localMidnight 0 = 0 := by decide
    rw [e1, e2]
    simp
  refine ⟨h1, h2, ?_⟩
  rw [h1, h2]
  decide

/-- Recording a retired file does not touch the deadline. -/
theorem appendNewFile_nextRotateTime (env : Env) (s : Sys) (fileName : String) :
    (appendNewFile env s fileName).rl.nextRotateTime = s.rl.nextRotateTime := by
  unfold appendNewFile
  split
  · rfl
  · rfl

/-- Installing a file handle does not touch the deadline. -/
theorem setNewFD_nextRotateTime (env : Env) (s : Sys) (fd : File) (fileName : String)
    (fileSize : Int) :
    (setNewFD env s fd fileName fileSize).rl.nextRotateTime = s.rl.nextRotateTime := by
  unfold setNewFD
  split
  · simp only [appendNewFile_nextRotateTime]
  · rfl

/-- Opening a file does not change the sink. -/
theorem openNewFile_rl (env : Env) (s : Sys) : (openNewFile env s).2.rl = s.rl := by
  unfold openNewFile
  simp only [getFileName, timeNow]
  split
  · rfl
  · split
    · rfl
    · split <;> rfl

/-- A rotation does not touch the deadline. -/
theorem rotateFile_nextRotateTime (env : Env) (s : Sys) :
    (rotateFile env s).2.rl.nextRotateTime = s.rl.nextRotateTime := by
  unfold rotateFile
  have h := openNewFile_rl env s
  split
  · next err s1 heq =>
    rw [heq] at h
    simp only at h ⊢
    rw [h]
  · next fh fileName fileSize s1 heq =>
    rw [heq] at h
    simp only at h ⊢
    rw [setNewFD_nextRotateTime, h]

/-- When the deadline is due, `rotateFileTime` stores the deadline computed from the second
reading of the clock. -/
theorem rotateFileTime_nextRotateTime (env : Env) (s : Sys)
    (hrot : s.rl.rotationTime ≠ 0) (hdue : s.rl.nextRotateTime ≤ env.clock s.tick) :
    (rotateFileTime env s).2.rl.nextRotateTime
      = nextRotationTime s.rl.rotationTime (env.localMidnight (env.clock (s.tick + 1)))
          (env.clock (s.tick + 1)) := by
  unfold rotateFileTime
  rw [if_neg hrot]
  simp only [timeNow]
  rw [if_neg (by omega)]
  simp only [rotateFile_nextRotateTime]
  rfl

/-- Claim C5, as the code has it. For a rotation interval `0 < I` and a Write issued when
the clock has reached the deadline `d` (the clock not going back between the two readings
of the call), `rotateFileTime` stores a deadline `d'` that is strictly greater than `d` and
than both readings of the clock, at most one interval after the second reading, and a
positive multiple of `I` after local midnight of the day of that reading; and when `d` was
produced by `getNextRotationTime` at a reading whose local midnight is `midnight0`, `d'`
differs from `d` by a positive multiple of `I` exactly when `I` divides the distance between
the two midnights (always within one day, and across days when `I` divides their distance). -/
theorem rotateFileTime_deadline (env : Env) (s0 s : Sys) (I : Int)
    (hI : 0 < I) (hI64 : I < 2 ^ 63) (hrot : s.rl.rotationTime = I)
    (hdue : s.rl.nextRotateTime ≤ env.clock s.tick)
    (hstep : env.clock s.tick ≤ env.clock (s.tick + 1))
    (hmid : env.localMidnight (env.clock (s.tick + 1)) ≤ env.clock (s.tick + 1))
    (hday : env.clock (s.tick + 1) - env.localMidnight (env.clock (s.tick + 1)) < 2 ^ 62) :
    let d := s.rl.nextRotateTime
    let d' := (rotateFileTime env s).2.rl.nextRotateTime
    let midnight := env.localMidnight (env.clock (s.tick + 1))
    let midnight0 := env.localMidnight (env.clock s0.tick)
    d < d' ∧ env.clock s.tick < d' ∧ env.clock (s.tick + 1) < d' ∧
    d' - I ≤ env.clock (s.tick + 1) ∧
    (∃ k : Int, 0 < k ∧ d' = midnight + k * I) ∧
    (s0.rl.rotationTime = I →
      d = (getNextRotationTime env s0).1 →
      midnight0 ≤ env.clock s0.tick →
      env.clock s0.tick - midnight0 < 2 ^ 62 →
      ((∃ k : Int, 0 < k ∧ d' - d = k * I) ↔ I ∣ (midnight - midnight0))) := by
  intro d d' midnight midnight0
  have hd' : d' = nextRotationTime I midnight (env.clock (s.tick + 1)) := by
    show (rotateFileTime env s).2.rl.nextRotateTime = _
    rw [rotateFileTime_nextRotateTime env s (by omega) hdue, hrot]
  have heq := nextRotationTime_eq I midnight _ hI hI64 hmid hday
  have hgt := nextRotationTime_gt I midnight _ hI hI64 hmid hday
  have hq0 : 0 ≤ (env.clock (s.tick + 1) - midnight) / I :=
    Int.ediv_nonneg (by omega) (le_of_lt hI)
  have hnow : env.clock (s.tick + 1) < d' := by
    rw [hd']
    exact hgt.1
  have hlt : d < d' := by
    show s.rl.nextRotateTime < d'
    omega
  refine ⟨hlt, by omega, hnow, ?_, ⟨_, ?_, hd'.trans heq⟩, ?_⟩
  · rw [hd']
    exact hgt.2
  · omega
  · intro hrot0 hprev hmid0 hday0
    have hd : d = midnight0 + ((env.clock s0.tick - midnight0) / I + 1) * I := by
      rw [hprev, getNextRotationTime_fst, hrot0]
      exact nextRotationTime_eq I midnight0 _ hI hI64 hmid0 hday0
    have hdiff : d' - d = (midnight - midnight0)
        + ((env.clock (s.tick + 1) - midnight) / I - (env.clock s0.tick - midnight0) / I) * I := by
      rw [hd', heq, hd]
      ring
    constructor
    · rintro ⟨k, _, hk⟩
      refine ⟨k - ((env.clock (s.tick + 1) - midnight) / I
        - (env.clock s0.tick - midnight0) / I), ?_⟩
      have : midnight - midnight0 = k * I
          - ((env.clock (s.tick + 1) - midnight) / I - (env.clock s0.tick - midnight0) / I) * I := by
        rw [← hk, hdiff]
        ring
      rw [this]
      ring
    · rintro ⟨c, hc⟩
      refine ⟨c + ((env.clock (s.tick + 1) - midnight) / I
        - (env.clock s0.tick - midnight0) / I), ?_, ?_⟩
      · by_contra hle
        have hle2 : c + ((env.clock (s.tick + 1) - midnight) / I
            - (env.clock s0.tick - midnight0) / I) ≤ 0 := by omega
        have hmul := Int.mul_le_mul_of_nonneg_right hle2 (le_of_lt hI)
        have hpos : 0 < d' - d := by omega
        rw [hdiff, hc] at hpos
        have : (c + ((env.clock (s.tick + 1) - midnight) / I
            - (env.clock s0.tick - midnight0) / I)) * I
            = I * c + ((env.clock (s.tick + 1) - midnight) / I
            - (env.clock s0.tick - midnight0) / I) * I := by ring
        omega
      · rw [hdiff, hc]
        ring

/-- Claim C5, an instance of `rotateFileTime_deadline` across a day boundary: with an interval
of 6 hours in UTC the deadline 00:00 of day 1, computed at 22:00 of day 0, is replaced at
05:00 of day 1 by the deadline 06:00 of day 1, one interval later; 6 hours divide the day
between the two midnights. -/
theorem rotateFileTime_deadline_witness :
    (0 : Int) < 21600000000000 ∧
    NewRotateLogs envUTC "d" "b" "" "_20060102_150405.log" [WithRotationTime 21600000000000]
      = Except.ok sysSixHoursDue ∧
    sysSixHoursDue.rl.nextRotateTime = (getNextRotationTime envUTC sysSixHours).1 ∧
    sysSixHoursDue.rl.nextRotateTime ≤ envUTC.clock sysSixHoursDue.tick ∧
    envUTC.localMidnight (envUTC.clock sysSixHours.tick) = 0 ∧
    envUTC.localMidnight (envUTC.clock (sysSixHoursDue.tick + 1)) = 86400000000000 ∧
    (rotateFileTime envUTC sysSixHoursDue).2.rl.nextRotateTime = 108000000000000 ∧
    ∃ k : Int, 0 < k ∧
      (rotateFileTime envUTC sysSixHoursDue).2.rl.nextRotateTime
        - sysSixHoursDue.rl.nextRotateTime = k * 21600000000000 :=
  ⟨by decide, rfl, by decide, by decide, by decide, by decide, by decide,
    ((rotateFileTime_deadline envUTC sysSixHours sysSixHoursDue 21600000000000 (by decide)
      (by decide) rfl (by decide) (by decide) (by decide) (by decide)).2.2.2.2.2
      rfl (by decide) (by decide) (by decide)).mpr (by decide)⟩

/-- Claim C5 fails as stated: with an interval of 7 hours in UTC, the deadline computed at
22:00 of day 0 is 04:00 of day 1; the Write at 05:00 of day 1 recomputes the deadline 07:00
of day 1, which is 3 hours later, not a multiple of 7 hours. -/
theorem rotateFileTime_not_multiple :
    NewRotateLogs envUTC "d" "b" "" "_20060102_150405.log" [WithRotationTime 25200000000000]
      = Except.ok sysSevenHoursDue ∧
    (0 : Int) < sysSevenHoursDue.rl.rotationTime ∧
    sysSevenHours.rl.rotationTime = sysSevenHoursDue.rl.rotationTime ∧
    sysSevenHours.tick < sysSevenHoursDue.tick ∧
    sysSevenHoursDue.rl.nextRotateTime = (getNextRotationTime envUTC sysSevenHours).1 ∧
    sysSevenHoursDue.rl.nextRotateTime ≤ envUTC.clock sysSevenHoursDue.tick ∧
    (rotateFileTime envUTC sysSevenHoursDue).2.rl.nextRotateTime
      - sysSevenHoursDue.rl.nextRotateTime = 10800000000000 ∧
    ¬ ∃ k : Int, 0 < k ∧
      (rotateFileTime envUTC sysSevenHoursDue).2.rl.nextRotateTime
        - sysSevenHoursDue.rl.nextRotateTime = k * sysSevenHoursDue.rl.rotationTime := by
  have h : (rotateFileTime envUTC sysSevenHoursDue).2.rl.nextRotateTime
      - sysSevenHoursDue.rl.nextRotateTime = 10800000000000 := by decide
  refine ⟨rfl, by decide, rfl, by decide, by decide, by decide, h, ?_⟩
  rw [h]
  rintro ⟨k, hk, he⟩
  have hr : sysSevenHoursDue.rl.rotationTime = 25200000000000 := rfl
  rw [hr] at he
  omega

/-! ## Rotation by size and the order of a Write (C3, C9) -/

/-- The age loop only advances the clock counter. -/
theorem ageLoop_tick (env : Env) (maxAge : Int) (files : List logFile) (i tick : Nat)
    (rf : List String) (ri : Int) :
    tick ≤ (ageLoop env maxAge files i tick rf ri).2.2 := by
  induction files generalizing i tick rf ri with
  | nil => simp [ageLoop]
  | cons f rest ih =>
    simp only [ageLoop]
    split
    · exact le_trans (Nat.le_succ _) (ih _ _ _ _)
    · exact Nat.le_succ _

/-- Recording a retired file only advances the clock counter. -/
theorem appendNewFile_tick (env : Env) (s : Sys) (fileName : String) :
    s.tick ≤ (appendNewFile env s fileName).tick := by
  unfold appendNewFile
  split
  · exact le_refl _
  · simp only [timeNow, removeFile]
    split
    · exact le_trans (Nat.le_succ _) (ageLoop_tick _ _ _ _ _ _ _)
    · exact Nat.le_succ _

/-- Recording a retired file changes only the retained sequence and the clock counter, and
adds only `removeFile` events. -/
theorem appendNewFile_frame (env : Env) (s : Sys) (fileName : String) :
    ∃ files tick rest,
      appendNewFile env s fileName
        = { s with rl := { s.rl with files := files }, tick := tick, trace := s.trace ++ rest } ∧
      s.tick ≤ tick ∧ ∀ e ∈ rest, ∃ l, e = Event.removeFile l := by
  have htick := appendNewFile_tick env s fileName
  refine ⟨(appendNewFile env s fileName).rl.files, (appendNewFile env s fileName).tick, ?_⟩
  by_cases h : s.rl.maxNum = 0 ∧ s.rl.maxAge = 0
  · have e : appendNewFile env s fileName = s := by
      unfold appendNewFile
      rw [if_pos h]
    refine ⟨[], ?_, htick, by simp⟩
    rw [e]
    simp
  · refine ⟨[Event.removeFile ?l], ?heq, htick, ?hall⟩
    case heq =>
      unfold appendNewFile
      rw [if_neg h]
      exact rfl
    case hall => simp

/-- The bytes written by a trace add up over concatenation. -/
theorem bytesWritten_append (a b : List Event) :
    bytesWritten (a ++ b) = bytesWritten a + bytesWritten b := by
  induction a with
  | nil => simp [bytesWritten]
  | cons e a ih =>
    cases e <;> simp [bytesWritten, ih, Nat.add_assoc]

/-- Deletion events write no bytes. -/
theorem bytesWritten_removeFile (rest : List Event) (h : ∀ e ∈ rest, ∃ l, e = Event.removeFile l) :
    bytesWritten rest = 0 := by
  induction rest with
  | nil => rfl
  | cons e rest ih =>
    obtain ⟨l, rfl⟩ := h e (List.mem_cons_self _ _)
    simp only [bytesWritten]
    exact ih (fun e he => h e (List.mem_cons_of_mem _ he))

/-- When no time rotation is due, `rotateFileTime` returns false and at most reads the
clock. -/
theorem rotateFileTime_quiet (env : Env) (s : Sys) (h : NoTimeRotation env s) :
    ∃ t, s.tick ≤ t ∧ rotateFileTime env s = (false, { s with tick := t }) := by
  unfold rotateFileTime
  by_cases h0 : s.rl.rotationTime = 0
  · rw [if_pos h0]
    exact ⟨s.tick, le_refl _, rfl⟩
  · rw [if_neg h0]
    rcases h with h | h
    · exact absurd h h0
    · simp only [timeNow]
      rw [if_pos (h s.tick (le_refl _))]
      exact ⟨s.tick + 1, Nat.le_succ _, rfl⟩

/-- In synchronous mode a successful raw write stores the payload in the current file. -/
theorem writerWrite_file (env : Env) (s : Sys) (p : Bytes) (fh : File)
    (hw : s.rl.writer = some IWriter.fileWriter) (hfh : s.rl.outFh = some fh)
    (hraw : env.fileWrite s.writes fh p = none) :
    writerWrite env s p = some (((p.length : Int), none),
      { s with writes := s.writes + 1, trace := s.trace ++ [Event.write fh p] }) := by
  unfold writerWrite
  rw [hw]
  simp only [fileWriter.Write, writeToFile, hfh, hraw]

/-- Installing a new handle over an open one closes the old file, records it, and sets the
name and the size counter of the new file. -/
theorem setNewFD_open (env : Env) (s : Sys) (old fd : File) (fileName : String) (fileSize : Int)
    (hfh : s.rl.outFh = some old) :
    ∃ files tick rest,
      setNewFD env s fd fileName fileSize
        = { s with rl := { s.rl with files := files, outFh := some fd, currFileName := fileName,
                                     currFileSize := fileSize },
                   tick := tick, trace := s.trace ++ [Event.close old] ++ rest } ∧
      s.tick ≤ tick ∧ ∀ e ∈ rest, ∃ l, e = Event.removeFile l := by
  unfold setNewFD
  rw [hfh]
  obtain ⟨files, tick, rest, heq, htick, hrest⟩ :=
    appendNewFile_frame env { s with trace := s.trace ++ [Event.close old] } s.rl.currFileName
  refine ⟨files, tick, rest, ?_, htick, hrest⟩
  simp only [heq]

/-- When every open succeeds, a rotation installs the file that the k-th open returns for the
path `getFileName` yields. -/
theorem rotateFile_open (env : Env) (s : Sys) (hopen : OpensSucceed env) :
    ∃ fh size,
      rotateFile env s
        = (none, setNewFD env { s with tick := s.tick + 1 + 1, opens := s.opens + 1 } fh
            (getFileName env s).1 size) ∧
      env.openFile s.opens (getFileName env s).1 = some fh ∧
      env.statSize s.opens fh = some size := by
  obtain ⟨hmk, fh, size, ho, hs⟩ := hopen s.opens (getFileName env s).1
  refine ⟨fh, size, ?_, ho, hs⟩
  unfold rotateFile openNewFile
  simp only [getFileName, timeNow] at hmk ho hs ⊢
  simp only [hmk, ho, hs]
  rfl

/-- One synchronous Write with no time rotation, a successful raw write and successful opens,
the `int64` size counter not overflowing. -/
theorem Write_sync (env : Env) (s : Sys) (p : Bytes) (fh : File) (M : Int)
    (hM : 0 < M) (hsize : s.rl.rotateLogFileMaxSize = M)
    (hw : s.rl.writer = some IWriter.fileWriter) (hfh : s.rl.outFh = some fh)
    (hquiet : NoTimeRotation env s) (hraw : WritesSucceed env) (hopen : OpensSucceed env)
    (hlo : -(2 ^ 63) ≤ s.rl.currFileSize + p.length)
    (hhi : s.rl.currFileSize + p.length < 2 ^ 63) :
    ∃ s', Write env s p = some (((p.length : Int), none), s') ∧
      s'.rl.torotateConfig = s.rl.torotateConfig ∧ s'.rl.writer = s.rl.writer ∧
      s'.rl.nextRotateTime = s.rl.nextRotateTime ∧ s.tick ≤ s'.tick ∧
      (s.rl.currFileSize + p.length < M →
        s'.rl.outFh = some fh ∧ s'.rl.currFileName = s.rl.currFileName ∧
        s'.rl.currFileSize = s.rl.currFileSize + p.length ∧
        s'.opens = s.opens ∧ s'.trace = s.trace ++ [Event.write fh p]) ∧
      (M ≤ s.rl.currFileSize + p.length →
        ∃ fh' size rest,
          env.openFile s.opens (getFileName env (rotateFileTime env s).2).1 = some fh' ∧
          env.statSize s.opens fh' = some size ∧
          s'.rl.outFh = some fh' ∧
          s'.rl.currFileName = (getFileName env (rotateFileTime env s).2).1 ∧
          s'.rl.currFileSize = size ∧
          s'.opens = s.opens + 1 ∧
          s'.trace = s.trace ++ [Event.write fh p, Event.close fh] ++ rest ∧
          ∀ e ∈ rest, ∃ l, e = Event.removeFile l) := by
  obtain ⟨t, ht, hrt⟩ := rotateFileTime_quiet env s hquiet
  have hww := writerWrite_file env { s with tick := t } p fh hw hfh (hraw _ _ _)
  have hW : Write env s p = some (((p.length : Int), (rotateFileSize env
      { s with tick := t, writes := s.writes + 1, trace := s.trace ++ [Event.write fh p] }
      p.length).1), (rotateFileSize env
      { s with tick := t, writes := s.writes + 1, trace := s.trace ++ [Event.write fh p] }
      p.length).2) := by
    unfold Write
    rw [hrt]
    simp only [hww, Option.isSome_none, Bool.false_eq_true, if_false, Bool.not_false, if_true]
  have hwrap : wrap64 (s.rl.currFileSize + (p.length : Int))
      = s.rl.currFileSize + (p.length : Int) := wrap64_eq _ hlo hhi
  by_cases hlt : s.rl.currFileSize + (p.length : Int) < M
  · have hR : rotateFileSize env
        { s with tick := t, writes := s.writes + 1, trace := s.trace ++ [Event.write fh p] }
        p.length = (none,
        { s with tick := t, writes := s.writes + 1, trace := s.trace ++ [Event.write fh p],
                 rl := { s.rl with currFileSize := s.rl.currFileSize + (p.length : Int) } }) := by
      unfold rotateFileSize
      simp only [hwrap]
      rw [if_neg (by rw [hsize]; omega), if_pos (by rw [hsize]; exact hlt)]
    rw [hR] at hW
    exact ⟨_, hW, rfl, rfl, rfl, ht, fun _ => ⟨hfh, rfl, rfl, rfl, rfl⟩,
      fun hge => absurd hlt (by omega)⟩
  · obtain ⟨fh', size, hrf, ho, hs⟩ := rotateFile_open env
      { s with tick := t, writes := s.writes + 1, trace := s.trace ++ [Event.write fh p],
               rl := { s.rl with currFileSize := s.rl.currFileSize + (p.length : Int) } } hopen
    have hname : (getFileName env
        { s with tick := t, writes := s.writes + 1, trace := s.trace ++ [Event.write fh p],
                 rl := { s.rl with currFileSize := s.rl.currFileSize + (p.length : Int) } }).1
        = (getFileName env (rotateFileTime env s).2).1 := by
      rw [hrt]
      rfl
    rw [hname] at hrf ho
    obtain ⟨files, tick, rest, hset, htick, hrest⟩ := setNewFD_open env
      { s with tick := t + 1 + 1, opens := s.opens + 1, writes := s.writes + 1,
               trace := s.trace ++ [Event.write fh p],
               rl := { s.rl with currFileSize := s.rl.currFileSize + (p.length : Int) } }
      fh fh' (getFileName env (rotateFileTime env s).2).1 size hfh
    have hR : rotateFileSize env
        { s with tick := t, writes := s.writes + 1, trace := s.trace ++ [Event.write fh p] }
        p.length = (none,
        { s with rl := { s.rl with files := files, outFh := some fh',
                                   currFileName := (getFileName env (rotateFileTime env s).2).1,
                                   currFileSize := size },
                 tick := tick, opens := s.opens + 1, writes := s.writes + 1,
                 trace := s.trace ++ [Event.write fh p] ++ [Event.close fh] ++ rest }) := by
      unfold rotateFileSize
      simp only [hwrap]
      rw [if_neg (by rw [hsize]; omega), if_neg (by rw [hsize]; exact hlt)]
      exact hrf.trans (congrArg (Prod.mk none) hset)
    rw [hR] at hW
    have htick2 : t + 1 + 1 ≤ tick := htick
    refine ⟨_, hW, rfl, rfl, rfl, ?_, fun h => absurd h hlt, fun _ =>
      ⟨fh', size, rest, ho, hs, rfl, rfl, rfl, rfl, ?_, hrest⟩⟩
    · show s.tick ≤ tick
      omega
    · show s.trace ++ [Event.write fh p] ++ [Event.close fh] ++ rest = _
      simp

/-- One Write on a sink that is `SyncReady`, the size counter not overflowing: the payload is
stored in the file current at entry; the file stays when the counter stays below `M` and is
replaced when it reaches `M`. -/
theorem Write_sync_ready (env : Env) (M : Int) (hM : 0 < M)
    (hraw : WritesSucceed env) (hopen : OpensSucceed env)
    (s : Sys) (p : Bytes) (fh : File) (hready : SyncReady env M s) (hfh : s.rl.outFh = some fh)
    (hlo : -(2 ^ 63) ≤ s.rl.currFileSize + p.length)
    (hhi : s.rl.currFileSize + p.length < 2 ^ 63) :
    ∃ s', Write env s p = some (((p.length : Int), none), s') ∧ SyncReady env M s' ∧
      bytesWritten s'.trace = bytesWritten s.trace + p.length ∧
      (s.rl.currFileSize + p.length < M →
        s'.rl.outFh = some fh ∧ s'.rl.currFileName = s.rl.currFileName ∧
        s'.rl.currFileSize = s.rl.currFileSize + p.length ∧
        s'.opens = s.opens ∧ s'.trace = s.trace ++ [Event.write fh p]) ∧
      (M ≤ s.rl.currFileSize + p.length →
        ∃ fh' rest,
          env.openFile s.opens (getFileName env (rotateFileTime env s).2).1 = some fh' ∧
          s'.rl.outFh = some fh' ∧
          s'.rl.currFileName = (getFileName env (rotateFileTime env s).2).1 ∧
          env.statSize s.opens fh' = some s'.rl.currFileSize ∧ s'.opens = s.opens + 1 ∧
          s'.trace = s.trace ++ [Event.write fh p, Event.close fh] ++ rest ∧
          ∀ e ∈ rest, ∃ l, e = Event.removeFile l) := by
  obtain ⟨hw, _, hsize, hquiet⟩ := hready
  obtain ⟨s', hW, hcfg, hwr, hnext, htick, hlt, hge⟩ :=
    Write_sync env s p fh M hM hsize hw hfh hquiet hraw hopen hlo hhi
  have hquiet' : NoTimeRotation env s' := by
    rcases hquiet with h | h
    · left
      have : s'.rl.rotationTime = s.rl.rotationTime := congrArg rotateConfig.rotationTime hcfg
      rw [this, h]
    · right
      intro k hk
      rw [hnext]
      exact h k (le_trans htick hk)
  have hsize' : s'.rl.rotateLogFileMaxSize = M := by
    have : s'.rl.rotateLogFileMaxSize = s.rl.rotateLogFileMaxSize :=
      congrArg rotateConfig.rotateLogFileMaxSize hcfg
    rw [this, hsize]
  by_cases hc : s.rl.currFileSize + (p.length : Int) < M
  · obtain ⟨h1, h2, h3, h4, h5⟩ := hlt hc
    refine ⟨s', hW, ⟨hwr.trans hw, by rw [h1]; rfl, hsize', hquiet'⟩, ?_,
      fun _ => ⟨h1, h2, h3, h4, h5⟩, fun h => absurd hc (by omega)⟩
    rw [h5, bytesWritten_append]
    simp [bytesWritten]
  · obtain ⟨fh', size, rest, ho, hs, h1, h2, h3, h4, h5, h6⟩ := hge (by omega)
    refine ⟨s', hW, ⟨hwr.trans hw, by rw [h1]; rfl, hsize', hquiet'⟩, ?_, fun h => absurd h hc,
      fun _ => ⟨fh', rest, ho, h1, h2, by rw [h3]; exact hs, h4, h5, h6⟩⟩
    rw [h5, bytesWritten_append, bytesWritten_append, bytesWritten_removeFile rest h6]
    simp [bytesWritten]

/-- A sequence of Writes on a sink that is `SyncReady`, under the invariant that the counter
is non-negative and the counter plus the payloads still to come fits an `int64`. -/
theorem writeAll_sync_ready (env : Env) (M : Int) (hM : 0 < M)
    (hraw : WritesSucceed env) (hopen : OpensSucceed env) (hstat : SizesInRange env)
    (s : Sys) (ps : List Bytes) (hready : SyncReady env M s)
    (h0 : 0 ≤ s.rl.currFileSize)
    (hfit : s.rl.currFileSize + ((ps.map List.length).sum : Nat) < 2 ^ 63)
    (hsum : (((ps.map List.length).sum : Nat) : Int) < 2 ^ 62) :
    ∃ s', writeAll env s ps = some s' ∧ SyncReady env M s' ∧
      bytesWritten s'.trace = bytesWritten s.trace + (ps.map List.length).sum ∧
      s.opens ≤ s'.opens ∧
      (s.rl.currFileSize + ((ps.map List.length).sum : Nat) < M →
        s'.opens = s.opens ∧ s'.rl.outFh = s.rl.outFh ∧
        s'.rl.currFileName = s.rl.currFileName ∧
        s'.rl.currFileSize = s.rl.currFileSize + ((ps.map List.length).sum : Nat)) ∧
      (ps ≠ [] → M ≤ s.rl.currFileSize + ((ps.map List.length).sum : Nat) →
        s.opens < s'.opens) := by
  induction ps generalizing s with
  | nil =>
    exact ⟨s, rfl, hready, by simp, le_refl _, fun _ => ⟨rfl, rfl, rfl, by simp⟩,
      fun hne => absurd rfl hne⟩
  | cons p ps ih =>
    obtain ⟨fh, hfh⟩ := Option.isSome_iff_exists.mp hready.2.1
    have hsumc : (((List.map List.length (p :: ps)).sum : Nat) : Int)
        = (p.length : Int) + (((List.map List.length ps).sum : Nat) : Int) := by
      simp only [List.map_cons, List.sum_cons, Nat.cast_add]
    rw [hsumc] at hfit hsum
    have hnn : (0 : Int) ≤ (((List.map List.length ps).sum : Nat) : Int) := Int.natCast_nonneg _
    have hpn : (0 : Int) ≤ (p.length : Int) := Int.natCast_nonneg _
    obtain ⟨s1, hW, hready1, hbytes, hlt, hge⟩ :=
      Write_sync_ready env M hM hraw hopen s p fh hready hfh (by omega) (by omega)
    have hs1 : 0 ≤ s1.rl.currFileSize ∧
        s1.rl.currFileSize + (((List.map List.length ps).sum : Nat) : Int) < 2 ^ 63 := by
      by_cases hc : s.rl.currFileSize + (p.length : Int) < M
      · rw [(hlt hc).2.2.1]
        constructor <;> omega
      · obtain ⟨fh', _, _, _, _, hst, _⟩ := hge (by omega)
        have := hstat _ _ _ hst
        constructor <;> omega
    obtain ⟨s', hall, hready', hbytes', hmono, hlt', hge'⟩ :=
      ih s1 hready1 hs1.1 hs1.2 (by omega)
    have hstep_opens : s.opens ≤ s1.opens := by
      by_cases hc : s.rl.currFileSize + (p.length : Int) < M
      · rw [(hlt hc).2.2.2.1]
      · obtain ⟨_, _, _, _, _, _, h4, _⟩ := hge (by omega)
        omega
    refine ⟨s', ?_, hready', ?_, le_trans hstep_opens hmono, ?_, ?_⟩
    · simp only [writeAll, hW]
      exact hall
    · rw [hbytes', hbytes]
      simp only [List.map_cons, List.sum_cons]
      omega
    · intro hsmall
      rw [hsumc] at hsmall ⊢
      obtain ⟨h1, h2, h3, h4, _⟩ := hlt (by omega)
      obtain ⟨g1, g2, g3, g4⟩ := hlt' (by rw [h3]; omega)
      exact ⟨by rw [g1, h4], by rw [g2, h1, hfh], by rw [g3, h2], by rw [g4, h3]; ring⟩
    · intro _ hbig
      rw [hsumc] at hbig
      by_cases hc : s.rl.currFileSize + (p.length : Int) < M
      · obtain ⟨_, _, h3, h4, _⟩ := hlt hc
        have hps : ps ≠ [] := by
          rintro rfl
          simp only [List.map_nil, List.sum_nil, Nat.cast_zero, add_zero] at hbig
          omega
        have := hge' hps (by rw [h3]; omega)
        omega
      · obtain ⟨_, _, _, _, _, _, h4, _⟩ := hge (by omega)
        omega

/-- Claim C3. Rotation by size: with max size `M > 0`, in synchronous mode, while no time
rotation fires, every raw write and file open succeeds and the `int64` size counter does not
overflow, (1) each Write stores its payload in the file that is current when it starts and
adds the payload length to the size counter; the file stays current when the counter stays
below `M`, and is replaced by a newly opened one (the file the open returns for the path
`getFileName` yields at that moment), whose counter starts at its existing size, exactly when
the counter has reached `M`, so the next Write lands in the newly opened file; (2) over any
sequence of such Writes (file sizes and payload totals below `2^62`) the total of bytes
written across all files grows by the total of the payload lengths, no file is opened while
the counter plus the payloads stays below `M`, and a new file has been opened once the
counter plus the payloads of a non-empty sequence reaches `M`. -/
theorem Write_rotation_by_size (env : Env) (M : Int) (hM : 0 < M)
    (hraw : WritesSucceed env) (hopen : OpensSucceed env) (hstat : SizesInRange env) :
    (∀ (s : Sys) (p : Bytes) (fh : File), SyncReady env M s → s.rl.outFh = some fh →
      -(2 ^ 63) ≤ s.rl.currFileSize → s.rl.currFileSize + p.length < 2 ^ 63 →
      ∃ s', Write env s p = some (((p.length : Int), none), s') ∧ SyncReady env M s' ∧
        bytesWritten s'.trace = bytesWritten s.trace + p.length ∧
        (s.rl.currFileSize + p.length < M →
          s'.rl.outFh = some fh ∧ s'.rl.currFileName = s.rl.currFileName ∧
          s'.rl.currFileSize = s.rl.currFileSize + p.length ∧
          s'.opens = s.opens ∧ s'.trace = s.trace ++ [Event.write fh p]) ∧
        (M ≤ s.rl.currFileSize + p.length →
          ∃ fh' rest,
            env.openFile s.opens (getFileName env (rotateFileTime env s).2).1 = some fh' ∧
            s'.rl.outFh = some fh' ∧
            s'.rl.currFileName = (getFileName env (rotateFileTime env s).2).1 ∧
            env.statSize s.opens fh' = some s'.rl.currFileSize ∧ s'.opens = s.opens + 1 ∧
            s'.trace = s.trace ++ [Event.write fh p, Event.close fh] ++ rest ∧
            ∀ e ∈ rest, ∃ l, e = Event.removeFile l)) ∧
    (∀ (s : Sys) (ps : List Bytes), SyncReady env M s →
      0 ≤ s.rl.currFileSize → s.rl.currFileSize < 2 ^ 62 →
      (((ps.map List.length).sum : Nat) : Int) < 2 ^ 62 →
      ∃ s', writeAll env s ps = some s' ∧ SyncReady env M s' ∧
        bytesWritten s'.trace = bytesWritten s.trace + (ps.map List.length).sum ∧
        s.opens ≤ s'.opens ∧
        (s.rl.currFileSize + ((ps.map List.length).sum : Nat) < M →
          s'.opens = s.opens ∧ s'.rl.outFh = s.rl.outFh ∧
          s'.rl.currFileName = s.rl.currFileName ∧
          s'.rl.currFileSize = s.rl.currFileSize + ((ps.map List.length).sum : Nat)) ∧
        (ps ≠ [] → M ≤ s.rl.currFileSize + ((ps.map List.length).sum : Nat) →
          s.opens < s'.opens)) := by
  refine ⟨?_, ?_⟩
  · intro s p fh hready hfh hlo hhi
    have hpn : (0 : Int) ≤ (p.length : Int) := Int.natCast_nonneg _
    exact Write_sync_ready env M hM hraw hopen s p fh hready hfh (by omega) hhi
  · intro s ps hready h0 hlt62 hsum
    exact writeAll_sync_ready env M hM hraw hopen hstat s ps hready h0 (by omega) hsum

/-- Claim C3, an instance of `Write_rotation_by_size`: on the sink constructed with max size
10, the Writes of 4, 10 and 4 bytes all return and 18 bytes are written in total. -/
theorem Write_rotation_by_size_witness :
    (0 : Int) < 10 ∧ WritesSucceed envTicking ∧ OpensSucceed envTicking ∧
    SizesInRange envTicking ∧ SyncReady envTicking 10 sysSync ∧
    (0 : Int) ≤ sysSync.rl.currFileSize ∧ sysSync.rl.currFileSize < 2 ^ 62 ∧
    ((([payload4, payload10, payload4].map List.length).sum : Nat) : Int) < 2 ^ 62 ∧
    ∃ s', writeAll envTicking sysSync [payload4, payload10, payload4] = some s' ∧
      bytesWritten s'.trace = 18 ∧ sysSync.opens < s'.opens :=
  ⟨by decide, fun _ _ _ => rfl, fun k _ => ⟨rfl, ⟨k⟩, 0, rfl, rfl⟩,
    fun _ _ _ h => by cases h; decide,
    ⟨rfl, rfl, rfl, Or.inl rfl⟩, by decide, by decide, by decide,
    match (Write_rotation_by_size envTicking 10 (by decide) (fun _ _ _ => rfl)
      (fun k _ => ⟨rfl, ⟨k⟩, 0, rfl, rfl⟩) (fun _ _ _ h => by cases h; decide)).2
      sysSync [payload4, payload10, payload4]
      ⟨rfl, rfl, rfl, Or.inl rfl⟩ (by decide) (by decide) (by decide) with
    | ⟨s', h1, _, h3, _, _, h6⟩ => ⟨s', h1, h3, h6 (by decide) (by decide)⟩⟩

/-- Claim C9, as the code has it. With max size `M > 0`, a synchronous Write (no time rotation
firing, raw write and file open succeeding, the `int64` counter not overflowing) whose
payload makes the accumulated size reach or exceed `M` performs the raw write first, to the
file that is current when the call starts, then adds the payload length to the counter and
decides the rotation: the payload is stored in the old file, which is closed afterwards and
replaced by the file opened at the path `getFileName` yields, and the counter after the call
is the size that stat reports for the opened file. -/
theorem Write_order_at_threshold (env : Env) (s : Sys) (p : Bytes) (fh : File) (M : Int)
    (hM : 0 < M) (hsize : s.rl.rotateLogFileMaxSize = M)
    (hw : s.rl.writer = some IWriter.fileWriter) (hfh : s.rl.outFh = some fh)
    (hquiet : NoTimeRotation env s) (hraw : WritesSucceed env) (hopen : OpensSucceed env)
    (hcross : M ≤ s.rl.currFileSize + p.length)
    (hhi : s.rl.currFileSize + p.length < 2 ^ 63) :
    ∃ s' fh' size rest,
      Write env s p = some (((p.length : Int), none), s') ∧
      env.openFile s.opens (getFileName env (rotateFileTime env s).2).1 = some fh' ∧
      env.statSize s.opens fh' = some size ∧
      s'.trace = s.trace ++ [Event.write fh p, Event.close fh] ++ rest ∧
      (∀ e ∈ rest, ∃ l, e = Event.removeFile l) ∧
      s'.rl.outFh = some fh' ∧
      s'.rl.currFileName = (getFileName env (rotateFileTime env s).2).1 ∧
      s'.rl.currFileSize = size := by
  obtain ⟨s', hW, _, _, _, _, _, hge⟩ :=
    Write_sync env s p fh M hM hsize hw hfh hquiet hraw hopen (by omega) hhi
  obtain ⟨fh', size, rest, ho, hs, h1, h2, h3, _, h5, h6⟩ := hge hcross
  exact ⟨s', fh', size, rest, hW, ho, hs, h5, h6, h1, h2, h3⟩

/-- Claim C9, an instance of `Write_order_at_threshold`: the Write of 10 bytes on the sink
constructed with max size 10 stores them in the old file 0 and leaves the counter at the size
of the file opened afterwards. -/
theorem Write_order_at_threshold_witness :
    (0 : Int) < 10 ∧ sysSync.rl.rotateLogFileMaxSize = 10 ∧
    NoTimeRotation envTicking sysSync ∧ WritesSucceed envTicking ∧ OpensSucceed envTicking ∧
    (10 : Int) ≤ sysSync.rl.currFileSize + payload10.length ∧
    sysSync.rl.currFileSize + payload10.length < 2 ^ 63 ∧
    ∃ s' fh' size rest,
      Write envTicking sysSync payload10 = some (((payload10.length : Int), none), s') ∧
      envTicking.openFile sysSync.opens
        (getFileName envTicking (rotateFileTime envTicking sysSync).2).1 = some fh' ∧
      envTicking.statSize sysSync.opens fh' = some size ∧
      s'.trace = sysSync.trace ++ [Event.write ⟨0⟩ payload10, Event.close ⟨0⟩] ++ rest ∧
      (∀ e ∈ rest, ∃ l, e = Event.removeFile l) ∧
      s'.rl.outFh = some fh' ∧
      s'.rl.currFileName = (getFileName envTicking (rotateFileTime envTicking sysSync).2).1 ∧
      s'.rl.currFileSize = size :=
  ⟨by decide, rfl, Or.inl rfl, fun _ _ _ => rfl, fun k _ => ⟨rfl, ⟨k⟩, 0, rfl, rfl⟩, by decide,
    by decide,
    Write_order_at_threshold envTicking sysSync payload10 ⟨0⟩ 10 (by decide) rfl rfl rfl
      (Or.inl rfl) (fun _ _ _ => rfl) (fun k _ => ⟨rfl, ⟨k⟩, 0, rfl, rfl⟩) (by decide)
      (by decide)⟩

/-- Claim C9 fails as stated: on the sink constructed with max size 10, whose current file
(descriptor 0) is empty, the synchronous Write of a 10-byte payload stores the payload in
the old file 0, then closes it and opens the new file 1 under a new name; the counter after
the call is 0, the size of the new file, and does not include the 10 bytes. -/
theorem Write_overflow_lands_in_old_file :
    NewRotateLogs envTicking "d" "b" "" "_20060102_150405.log" [WithRotateMaxSize 10]
      = Except.ok sysSync ∧
    (0 : Int) < sysSync.rl.rotateLogFileMaxSize ∧
    sysSync.rl.writer = some IWriter.fileWriter ∧ sysSync.rl.rotationTime = 0 ∧
    sysSync.rl.outFh = some ⟨0⟩ ∧
    sysSync.rl.rotateLogFileMaxSize ≤ sysSync.rl.currFileSize + payload10.length ∧
    ∃ s', Write envTicking sysSync payload10 = some ((10, none), s') ∧
      s'.trace = [Event.write ⟨0⟩ payload10, Event.close ⟨0⟩] ∧
      s'.rl.outFh = some ⟨1⟩ ∧ (⟨0⟩ : File) ≠ ⟨1⟩ ∧
      sysSync.rl.currFileName = "d//b_20060102_150405+.log" ∧
      s'.rl.currFileName = "d//b_20060102_150405++++.log" ∧
      s'.rl.currFileSize = 0 ∧
      ¬ ((payload10.length : Int) ≤ s'.rl.currFileSize) :=
  ⟨rfl, by decide, rfl, rfl, rfl, by decide, _, rfl, rfl, rfl, by decide, rfl, rfl, rfl,
    by decide⟩

/-- The size counter wraps like an `int64`: on the sink `sysSync` with the counter at
`2^63 - 2`, the Write of 4 bytes leaves the counter at `-2^63 + 2`, below the max size, and
no file is opened. -/
theorem Write_counter_wraps :
    ∃ s', Write envTicking
        { sysSync with rl := { sysSync.rl with currFileSize := 9223372036854775806 } }
        payload4 = some ((4, none), s') ∧
      s'.rl.currFileSize = -9223372036854775806 ∧ s'.opens = sysSync.opens ∧
      s'.rl.outFh = sysSync.rl.outFh :=
  ⟨_, rfl, by decide, rfl, rfl⟩

/-- A rotation within the resolution of the file name reopens the old path: on the sink
constructed in `envSameSecond` the Write of 10 bytes stores them in the file `sysSameSecond`
has open, the rotation opens the same path again, and the counter after the call is 10, the
size stat reports for it, which contains the payload. -/
theorem Write_same_second_reopens_path :
    NewRotateLogs envSameSecond "d" "b" "" "_20060102_150405.log" [WithRotateMaxSize 10]
      = Except.ok sysSameSecond ∧
    ∃ s', Write envSameSecond sysSameSecond payload10 = some ((10, none), s') ∧
      s'.trace = [Event.write ⟨0⟩ payload10, Event.close ⟨0⟩] ∧
      s'.rl.outFh = some ⟨1⟩ ∧
      s'.rl.currFileName = sysSameSecond.rl.currFileName ∧
      s'.rl.currFileSize = 10 :=
  ⟨rfl, _, rfl, rfl, rfl, rfl, rfl⟩

/-! ## The worker step of the buffered writer (C6) -/

/-- The drain loop started at `i` consumes only the first half (rounded up) of what the
condition `i < len(cw.logChannel)` still allows: every received payload both advances `i`
and shortens the channel. -/
theorem drainLoop_half {σ : Type} (wf : σ → Bytes → σ) (q : List Bytes) (i : Nat) (st : σ) :
    drainLoop wf q i st
      = (q.drop ((q.length - i + 1) / 2), (q.take ((q.length - i + 1) / 2)).foldl wf st) := by
  induction q generalizing i st with
  | nil => simp [drainLoop]
  | cons b rest ih =>
    simp only [drainLoop]
    split
    · next hlt =>
      rw [ih]
      simp only [List.length_cons] at hlt ⊢
      have e : (rest.length + 1 - i + 1) / 2 = (rest.length - (i + 1) + 1) / 2 + 1 := by omega
      rw [e]
      simp
    · next hge =>
      simp only [List.length_cons] at hge ⊢
      have e : (rest.length + 1 - i + 1) / 2 = 0 := by omega
      rw [e]
      simp

/-- Claim C6 fails on the code. After `Write`, `Write`, `Sync` two payloads are pending: the
worker step that takes the flush request applies only the first payload and acknowledges the
request with the second payload still in the queue. After three `Write`s and `Close` three
payloads are pending: the worker step that takes the close signal applies two of them and
returns false, so the worker exits with the third never attempted. -/
theorem channelWriter_write_barrier_leaves_payloads :
    ((channelWriter.Write (newChannelWriter 10) payload4).bind fun a =>
      (channelWriter.Write a.2 payload10).bind fun b =>
        channelWriter.Sync b.2 ⟨1⟩) = some cwTwoPending ∧
    ((channelWriter.Write (newChannelWriter 10) payload4).bind fun a =>
      (channelWriter.Write a.2 payload10).bind fun b =>
        (channelWriter.Write b.2 payload4).map fun c =>
          channelWriter.Close c.2) = some cwThreeClosing ∧
    (∃ r, channelWriter.write recordWf Case.syncChannel cwTwoPending [] = some r ∧
      r.result = true ∧ r.done = some ⟨1⟩ ∧
      r.sink = [payload4] ∧ r.cw.logChannel = [payload10]) ∧
    (∃ r, channelWriter.write recordWf Case.syncChannel cwThreeClosing [] = some r ∧
      r.result = false ∧ r.done = none ∧
      r.sink = [payload4, payload10] ∧ r.cw.logChannel = [payload4]) :=
  ⟨rfl, rfl, ⟨_, rfl, rfl, rfl, rfl, rfl⟩, ⟨_, rfl, rfl, rfl, rfl, rfl⟩⟩

/-! ## Construction (C7, C8, C10) -/

/-- Claim C7 fails on the code. Each of `WithRotationTime(1 minute)`, `WithMaxAge(1 minute)`
and `WithChannelLen(0)` returns an error from `Configure`, yet `NewRotateLogs`, called with an
existing directory and a valid template, returns a sink: the value is left at zero. -/
theorem NewRotateLogs_ignores_option_errors :
    (∀ rl, (WithRotationTime 60000000000 rl).1 = some "rotationTime is too small") ∧
    (∀ rl, (WithMaxAge 60000000000 rl).1 = some "maxAge is too small") ∧
    (∀ rl, (WithChannelLen 0 rl).1 = some "channel length must be greater than zero") ∧
    envQuiet.isDir "d" = true ∧ checkFileNameDateTimeLayout (Base "_20060102_150405.log") = none ∧
    (∃ s, NewRotateLogs envQuiet "d" "b" "" "_20060102_150405.log" [WithRotationTime 60000000000]
        = Except.ok s ∧ s.rl.rotationTime = 0) ∧
    (∃ s, NewRotateLogs envQuiet "d" "b" "" "_20060102_150405.log" [WithMaxAge 60000000000]
        = Except.ok s ∧ s.rl.maxAge = 0) ∧
    (∃ s, NewRotateLogs envQuiet "d" "b" "" "_20060102_150405.log" [WithChannelLen 0]
        = Except.ok s ∧ s.rl.logChannelLen = 0 ∧ s.rl.writer = some IWriter.fileWriter) :=
  ⟨fun _ => rfl, fun _ => rfl, fun _ => rfl, rfl, by decide,
    ⟨_, rfl, rfl⟩, ⟨_, rfl, rfl⟩, ⟨_, rfl, rfl, rfl⟩⟩

/-- Claim C8 fails on the code. The template `_01-02.log` has none of the tokens `2006`, `15`,
`04`, `05` as a substring, yet `checkFileNameDateTimeLayout` returns no error for its base
name, and `NewRotateLogs` returns a sink. -/
theorem checkFileNameDateTimeLayout_accepts_missing_tokens :
    ¬ ("2006".toList <:+: (Base "_01-02.log").toList) ∧
    ¬ ("15".toList <:+: (Base "_01-02.log").toList) ∧
    ¬ ("04".toList <:+: (Base "_01-02.log").toList) ∧
    ¬ ("05".toList <:+: (Base "_01-02.log").toList) ∧
    checkFileNameDateTimeLayout (Base "_01-02.log") = none ∧
    (∃ s, NewRotateLogs envQuiet "d" "b" "" "_01-02.log" [] = Except.ok s) :=
  ⟨by decide, by decide, by decide, by decide, by decide, ⟨_, rfl⟩⟩

/-- Claim C10 fails on the code. For the valid template `_20060102_150405_log.log`, whose
extension is `.log`, `NewRotateLogs` stores the layout `_20060102_150405_` and the extension
`.log`: `strings.TrimRight` also removed the characters `log` before the extension, so the
concatenation is not the template, and the first file is named without them. -/
theorem NewRotateLogs_trims_more_than_extension :
    Ext "_20060102_150405_log.log" = ".log" ∧
    checkFileNameDateTimeLayout (Base "_20060102_150405_log.log") = none ∧
    ∃ s, NewRotateLogs envQuiet "d" "b" "" "_20060102_150405_log.log" [] = Except.ok s ∧
      s.rl.suffixFileDateTimeLayout = "_20060102_150405_" ∧ s.rl.fileExt = ".log" ∧
      s.rl.suffixFileDateTimeLayout ++ s.rl.fileExt ≠ "_20060102_150405_log.log" ∧
      s.rl.currFileName = "d//b_20060102_150405_.log" :=
  ⟨by decide, by decide, _, rfl, by decide, by decide, by decide, by decide⟩

end rotatelogs
